import Mathlib

/-!
Verification of the structure-extraction and reconciliation pipeline of
rendertron-lite: the schema sanitizer and response normalizer
(src/utils/http.js), the cache fingerprint builder (src/utils/cache.js),
the markup structural extractor (src/handlers/structure.js), and the
placeholder substitution of the reconciliation orchestrator
(src/handlers/merge.js).

The JavaScript code is shallowly embedded: JavaScript values are the
inductive type `JsVal` (JSON numbers are modelled as integers; the code
under verification never relies on fractional values), objects are
insertion-ordered association lists as in the JS object model, and
property reads/writes mirror JS semantics (`undefined` for absent keys,
in-place update of existing keys, append of new keys).
-/

set_option autoImplicit false

/-- A JavaScript value. Arrays carry both their elements and, as in
JavaScript, an extra property map (assigning a named property to an array
stores it beside the elements). Absent properties read as `undefVal`. -/
inductive JsVal where
  | undefVal
  | null
  | bool (b : Bool)
  | num (n : Int)
  | str (s : String)
  | arr (elems : List JsVal) (props : List (String × JsVal))
  | obj (props : List (String × JsVal))

/-- JavaScript truthiness: `undefined`, `null`, `false`, `0` and `""` are
falsy; every object and array is truthy. -/
def truthy : JsVal → Bool
  | .undefVal => false
  | .null => false
  | .bool b => b
  | .num n => decide (n ≠ 0)
  | .str s => decide (s.length ≠ 0)
  | .arr _ _ => true
  | .obj _ => true

/-- JavaScript `typeof v === "object"` (true for `null`, arrays and
objects). -/
def typeofObject : JsVal → Bool
  | .null => true
  | .arr _ _ => true
  | .obj _ => true
  | _ => false

/-- Whether the value is a string (`typeof v === "string"`). -/
def isStr : JsVal → Bool
  | .str _ => true
  | _ => false

/-- JavaScript `Array.isArray`. -/
def isArray : JsVal → Bool
  | .arr _ _ => true
  | _ => false

/-- JavaScript loose equality to `null` (`v == null`): true exactly for
`null` and `undefined`. -/
def looseNull : JsVal → Bool
  | .null => true
  | .undefVal => true
  | _ => false

/-- First value stored under key `k` in a property list. -/
def lookupProps (k : String) : List (String × JsVal) → Option JsVal
  | [] => none
  | (k2, v) :: rest => if k2 = k then some v else lookupProps k rest

/-- Property assignment on a property list: an existing key is updated in
place, a new key is appended, as in the JS object model. -/
def setProps (k : String) (v : JsVal) : List (String × JsVal) → List (String × JsVal)
  | [] => [(k, v)]
  | (k2, v2) :: rest => if k2 = k then (k2, v) :: rest else (k2, v2) :: setProps k v rest

/-- Property read `v[k]`; absent keys and non-object receivers read as
`undefined`. -/
def getField : JsVal → String → JsVal
  | .obj props, k => (lookupProps k props).getD .undefVal
  | .arr _ props, k => (lookupProps k props).getD .undefVal
  | _, _ => .undefVal

/-- Property write `v[k] = x` (no effect on primitives). -/
def setField : JsVal → String → JsVal → JsVal
  | .obj props, k, v => .obj (setProps k v props)
  | .arr elems props, k, v => .arr elems (setProps k v props)
  | w, _, _ => w

/-- JavaScript `k in v` presence test. -/
def hasField : JsVal → String → Bool
  | .obj props, k => (lookupProps k props).isSome
  | .arr _ props, k => (lookupProps k props).isSome
  | _, _ => false

mutual

/-- JavaScript `String(v)` coercion. Arrays stringify as their elements
joined by commas (with `null`/`undefined` elements rendered empty), plain
objects as `"[object Object]"`. -/
def jsToString : JsVal → String
  | .undefVal => "undefined"
  | .null => "null"
  | .bool b => if b then "true" else "false"
  | .num n => toString n
  | .str s => s
  | .arr elems _ => jsArrayJoin elems
  | .obj _ => "[object Object]"

/-- `Array.prototype.join(",")` as used by `String(array)`. -/
def jsArrayJoin : List JsVal → String
  | [] => ""
  | v :: rest =>
    (match v with
     | .undefVal => ""
     | .null => ""
     | w => jsToString w)
    ++ (match rest with
        | [] => ""
        | _ => ",")
    ++ jsArrayJoin rest

end

/-- JavaScript `String(v || "")`: the string coercion of `v` when truthy,
else the empty string. -/
def jsStringOrEmpty (v : JsVal) : String :=
  if truthy v then jsToString v else ""

/-- JavaScript `s.padStart(3, "0")`. -/
def padStart3 (s : String) : String :=
  if s.length ≥ 3 then s else String.mk (List.replicate (3 - s.length) '0') ++ s

/-- Elements of an array value (callers establish the value is an array). -/
def arrElems : JsVal → List JsVal
  | .arr elems _ => elems
  | _ => []

/-- An actual array or plain object (equivalently: truthy and of
`typeof ... === "object"`). -/
def isObjVal : JsVal → Bool
  | .arr _ _ => true
  | .obj _ => true
  | _ => false

/-- The pattern `x && typeof x === "object" ? x : {}` from the section and
element lambdas of `sanitizeSchema`. -/
def coerceNonObject (v : JsVal) : JsVal :=
  if truthy v && typeofObject v then v else .obj []

/-- The pattern `if (!v.k) v.k = d` from `sanitizeSchema` (used for `id`,
`type`). -/
def ensureField (k : String) (d : JsVal) (v : JsVal) : JsVal :=
  if truthy (getField v k) then v else setField v k d

/-- The pattern `if (typeof v.k !== "string") v.k = String(v.k || "")`
from `sanitizeSchema` (used for `page_intent`, `section_intent`,
`intent`). -/
def coerceStringField (k : String) (v : JsVal) : JsVal :=
  if isStr (getField v k) then v
  else setField v k (.str (jsStringOrEmpty (getField v k)))

/-- The pattern
`if (typeof v.k !== "string") v.k = v.k == null ? "" : String(v.k)` from
`sanitizeSchema` (used for `text`, `alt`). -/
def coerceTextField (k : String) (v : JsVal) : JsVal :=
  if isStr (getField v k) then v
  else setField v k (.str (if looseNull (getField v k) then "" else jsToString (getField v k)))

/-- The pattern `if (!Array.isArray(v.k)) v.k = []` from
`sanitizeSchema` (used for `sections`, `elements`). -/
def ensureArrayField (k : String) (v : JsVal) : JsVal :=
  if isArray (getField v k) then v else setField v k (.arr [] [])

/-- The element cleanup lambda of `sanitizeSchema` (src/utils/http.js):
non-objects become `{}`, a falsy `type` becomes `"TEXT"`, and `text`,
`alt`, `intent` are coerced to strings (`null`/`undefined` to `""`),
coercions applied in that source order. -/
def sanitizeElement (el : JsVal) : JsVal :=
  coerceStringField "intent"
    (coerceTextField "alt"
      (coerceTextField "text"
        (ensureField "type" (.str "TEXT") (coerceNonObject el))))

/-- The field coercions of the section cleanup lambda of `sanitizeSchema`
(src/utils/http.js), in source order: non-objects become `{}`, a falsy
`id` is synthesized from the array index as `sec_NNN` (zero-padded to 3
digits), a falsy `type` becomes `"other"`, `section_intent` is coerced to
a string, and a non-array `elements` becomes `[]`. -/
def sanitizeSectionSteps (i : Nat) (sec : JsVal) : JsVal :=
  ensureArrayField "elements"
    (coerceStringField "section_intent"
      (ensureField "type" (.str "other")
        (ensureField "id" (.str ("sec_" ++ padStart3 (Nat.repr i)))
          (coerceNonObject sec))))

/-- Continuation of `sanitizeSectionSteps`: the final
`s.elements = s.elements.map(...)` line of the section lambda. -/
def sanitizeSection (i : Nat) (sec : JsVal) : JsVal :=
  let s4 := sanitizeSectionSteps i sec
  setField s4 "elements" (.arr ((arrElems (getField s4 "elements")).map sanitizeElement) [])

/-- `Array.prototype.map` with the index argument, as used by
`obj.sections.map((sec, i) => ...)`. -/
def mapWithIndex {α β : Type} (f : Nat → α → β) : Nat → List α → List β
  | _, [] => []
  | i, a :: rest => f i a :: mapWithIndex f (i + 1) rest

/-- The two top-level field coercions of `sanitizeSchema`
(src/utils/http.js): force `sections` to an array, then `page_intent` to
a string. -/
def sanitizeTopSteps (o : JsVal) : JsVal :=
  coerceStringField "page_intent" (ensureArrayField "sections" o)

/-- `sanitizeSchema` from src/utils/http.js: non-objects (and `null`) are
returned unchanged; otherwise `sections` is forced to an array,
`page_intent` to a string (`sanitizeTopSteps`), and every section is
cleaned in index order. -/
def sanitizeSchema (o : JsVal) : JsVal :=
  if !(truthy o && typeofObject o) then o
  else
    let o2 := sanitizeTopSteps o
    setField o2 "sections" (.arr (mapWithIndex sanitizeSection 0 (arrElems (getField o2 "sections"))) [])

/-! ### Basic lemmas about the JS object model -/

theorem truthy_and_typeofObject (v : JsVal) : (truthy v && typeofObject v) = isObjVal v := by
  cases v <;> simp [truthy, typeofObject, isObjVal]

theorem isObjVal_coerceNonObject (v : JsVal) : isObjVal (coerceNonObject v) = true := by
  unfold coerceNonObject
  rw [truthy_and_typeofObject]
  cases h : isObjVal v
  · simp [h, isObjVal]
  · simp [h]

theorem coerceNonObject_of_isObjVal {v : JsVal} (h : isObjVal v = true) :
    coerceNonObject v = v := by
  unfold coerceNonObject
  rw [truthy_and_typeofObject, h]
  rfl

theorem lookupProps_setProps_self (k : String) (v : JsVal) (props : List (String × JsVal)) :
    lookupProps k (setProps k v props) = some v := by
  induction props with
  | nil => simp [setProps, lookupProps]
  | cons p rest ih =>
    obtain ⟨k2, v2⟩ := p
    by_cases h : k2 = k <;> simp [setProps, lookupProps, h, ih]

theorem lookupProps_setProps_ne {k2 k : String} (h : k2 ≠ k) (v : JsVal)
    (props : List (String × JsVal)) :
    lookupProps k2 (setProps k v props) = lookupProps k2 props := by
  have h' : ¬(k = k2) := fun hh => h hh.symm
  induction props with
  | nil => simp [setProps, lookupProps, h']
  | cons p rest ih =>
    obtain ⟨k3, v3⟩ := p
    by_cases h3 : k3 = k
    · subst h3
      simp [setProps, lookupProps, h']
    · by_cases h2 : k3 = k2 <;> simp [setProps, lookupProps, h3, h2, h, ih]

theorem setProps_setProps_self (k : String) (v1 v2 : JsVal) (props : List (String × JsVal)) :
    setProps k v2 (setProps k v1 props) = setProps k v2 props := by
  induction props with
  | nil => simp [setProps]
  | cons p rest ih =>
    obtain ⟨k2, v3⟩ := p
    by_cases h : k2 = k <;> simp [setProps, h, ih]

theorem setProps_of_lookup_eq {k : String} {v : JsVal} {props : List (String × JsVal)}
    (h : lookupProps k props = some v) : setProps k v props = props := by
  induction props with
  | nil => simp [lookupProps] at h
  | cons p rest ih =>
    obtain ⟨k2, v2⟩ := p
    by_cases h2 : k2 = k
    · subst h2
      simp [lookupProps] at h
      simp [setProps, h]
    · simp [lookupProps, h2] at h
      simp [setProps, h2, ih h]

theorem getField_setField_self {v : JsVal} (h : isObjVal v = true) (k : String) (x : JsVal) :
    getField (setField v k x) k = x := by
  cases v <;> simp_all [isObjVal, setField, getField, lookupProps_setProps_self]

theorem getField_setField_ne (v : JsVal) {k2 k : String} (h : k2 ≠ k) (x : JsVal) :
    getField (setField v k x) k2 = getField v k2 := by
  cases v <;> simp [setField, getField, lookupProps_setProps_ne h]

theorem setField_setField_self (v : JsVal) (k : String) (x y : JsVal) :
    setField (setField v k x) k y = setField v k y := by
  cases v <;> simp [setField, setProps_setProps_self]

theorem setField_of_getField_eq {v : JsVal} {k : String} {x : JsVal}
    (hx : x ≠ .undefVal) (h : getField v k = x) : setField v k x = v := by
  cases v <;> simp_all [getField, setField]
  case arr elems props =>
    cases hl : lookupProps k props with
    | none => simp [hl] at h; exact absurd h.symm hx
    | some w =>
      simp [hl] at h
      subst h
      rw [setProps_of_lookup_eq hl]
  case obj props =>
    cases hl : lookupProps k props with
    | none => simp [hl] at h; exact absurd h.symm hx
    | some w =>
      simp [hl] at h
      subst h
      rw [setProps_of_lookup_eq hl]

theorem isObjVal_setField (v : JsVal) (k : String) (x : JsVal) :
    isObjVal (setField v k x) = isObjVal v := by
  cases v <;> rfl

/-! ### Lemmas about the per-field sanitization steps -/

theorem isObjVal_ensureField (k : String) (d v : JsVal) :
    isObjVal (ensureField k d v) = isObjVal v := by
  unfold ensureField
  split <;> simp [isObjVal_setField]

theorem isObjVal_coerceStringField (k : String) (v : JsVal) :
    isObjVal (coerceStringField k v) = isObjVal v := by
  unfold coerceStringField
  split <;> simp [isObjVal_setField]

theorem isObjVal_coerceTextField (k : String) (v : JsVal) :
    isObjVal (coerceTextField k v) = isObjVal v := by
  unfold coerceTextField
  split <;> simp [isObjVal_setField]

theorem isObjVal_ensureArrayField (k : String) (v : JsVal) :
    isObjVal (ensureArrayField k v) = isObjVal v := by
  unfold ensureArrayField
  split <;> simp [isObjVal_setField]

theorem getField_ensureField_ne {k2 k : String} (h : k2 ≠ k) (d v : JsVal) :
    getField (ensureField k d v) k2 = getField v k2 := by
  unfold ensureField
  split
  · rfl
  · exact getField_setField_ne v h d

theorem getField_coerceStringField_ne {k2 k : String} (h : k2 ≠ k) (v : JsVal) :
    getField (coerceStringField k v) k2 = getField v k2 := by
  unfold coerceStringField
  split
  · rfl
  · exact getField_setField_ne v h _

theorem getField_coerceTextField_ne {k2 k : String} (h : k2 ≠ k) (v : JsVal) :
    getField (coerceTextField k v) k2 = getField v k2 := by
  unfold coerceTextField
  split
  · rfl
  · exact getField_setField_ne v h _

theorem getField_ensureArrayField_ne {k2 k : String} (h : k2 ≠ k) (v : JsVal) :
    getField (ensureArrayField k v) k2 = getField v k2 := by
  unfold ensureArrayField
  split
  · rfl
  · exact getField_setField_ne v h _

theorem truthy_getField_ensureField {v d : JsVal} (h : isObjVal v = true)
    (hd : truthy d = true) (k : String) :
    truthy (getField (ensureField k d v) k) = true := by
  unfold ensureField
  split
  · assumption
  · rw [getField_setField_self h]
    exact hd

theorem isStr_getField_coerceStringField {v : JsVal} (h : isObjVal v = true) (k : String) :
    isStr (getField (coerceStringField k v) k) = true := by
  unfold coerceStringField
  split
  · assumption
  · rw [getField_setField_self h]
    rfl

theorem isStr_getField_coerceTextField {v : JsVal} (h : isObjVal v = true) (k : String) :
    isStr (getField (coerceTextField k v) k) = true := by
  unfold coerceTextField
  split
  · assumption
  · rw [getField_setField_self h]
    rfl

theorem ensureField_of_truthy {v : JsVal} {k : String} (h : truthy (getField v k) = true)
    (d : JsVal) : ensureField k d v = v := by
  unfold ensureField
  simp [h]

theorem coerceStringField_of_isStr {v : JsVal} {k : String} (h : isStr (getField v k) = true) :
    coerceStringField k v = v := by
  unfold coerceStringField
  simp [h]

theorem coerceTextField_of_isStr {v : JsVal} {k : String} (h : isStr (getField v k) = true) :
    coerceTextField k v = v := by
  unfold coerceTextField
  simp [h]

theorem ensureArrayField_of_isArray {v : JsVal} {k : String} (h : isArray (getField v k) = true) :
    ensureArrayField k v = v := by
  unfold ensureArrayField
  simp [h]

/-! ### Idempotence of the sanitizer -/

theorem truthy_str_of_length {s : String} (h : s.length ≠ 0) : truthy (.str s) = true := by
  simp [truthy, h]

theorem sanitizeElement_fixes (el : JsVal) :
    sanitizeElement (sanitizeElement el) = sanitizeElement el := by
  unfold sanitizeElement
  have hE0 : isObjVal (coerceNonObject el) = true := isObjVal_coerceNonObject el
  set E0 := coerceNonObject el with hE0def
  set E1 := ensureField "type" (.str "TEXT") E0 with hE1def
  set E2 := coerceTextField "text" E1 with hE2def
  set E3 := coerceTextField "alt" E2 with hE3def
  set r := coerceStringField "intent" E3 with hrdef
  have hE1 : isObjVal E1 = true := by rw [hE1def, isObjVal_ensureField]; exact hE0
  have hE2 : isObjVal E2 = true := by rw [hE2def, isObjVal_coerceTextField]; exact hE1
  have hE3 : isObjVal E3 = true := by rw [hE3def, isObjVal_coerceTextField]; exact hE2
  have hr : isObjVal r = true := by rw [hrdef, isObjVal_coerceStringField]; exact hE3
  have htype : truthy (getField r "type") = true := by
    rw [hrdef, getField_coerceStringField_ne (by decide),
      hE3def, getField_coerceTextField_ne (by decide),
      hE2def, getField_coerceTextField_ne (by decide), hE1def]
    exact truthy_getField_ensureField hE0 (by decide) "type"
  have htext : isStr (getField r "text") = true := by
    rw [hrdef, getField_coerceStringField_ne (by decide),
      hE3def, getField_coerceTextField_ne (by decide), hE2def]
    exact isStr_getField_coerceTextField hE1 "text"
  have halt : isStr (getField r "alt") = true := by
    rw [hrdef, getField_coerceStringField_ne (by decide), hE3def]
    exact isStr_getField_coerceTextField hE2 "alt"
  have hintent : isStr (getField r "intent") = true := by
    rw [hrdef]
    exact isStr_getField_coerceStringField hE3 "intent"
  rw [coerceNonObject_of_isObjVal hr, ensureField_of_truthy htype,
    coerceTextField_of_isStr htext, coerceTextField_of_isStr halt,
    coerceStringField_of_isStr hintent]

theorem sanitizeSection_unfold (i : Nat) (sec : JsVal) :
    sanitizeSection i sec =
      setField (sanitizeSectionSteps i sec) "elements"
        (.arr ((arrElems (getField (sanitizeSectionSteps i sec) "elements")).map sanitizeElement) []) :=
  rfl

theorem isObjVal_sanitizeSectionSteps (i : Nat) (sec : JsVal) :
    isObjVal (sanitizeSectionSteps i sec) = true := by
  unfold sanitizeSectionSteps
  rw [isObjVal_ensureArrayField, isObjVal_coerceStringField, isObjVal_ensureField,
    isObjVal_ensureField]
  exact isObjVal_coerceNonObject sec

theorem isObjVal_sanitizeSection (i : Nat) (sec : JsVal) :
    isObjVal (sanitizeSection i sec) = true := by
  rw [sanitizeSection_unfold, isObjVal_setField]
  exact isObjVal_sanitizeSectionSteps i sec

theorem truthy_id_sanitizeSection (i : Nat) (sec : JsVal) :
    truthy (getField (sanitizeSection i sec) "id") = true := by
  rw [sanitizeSection_unfold, getField_setField_ne _ (by decide)]
  unfold sanitizeSectionSteps
  rw [getField_ensureArrayField_ne (by decide), getField_coerceStringField_ne (by decide),
    getField_ensureField_ne (by decide)]
  refine truthy_getField_ensureField (isObjVal_coerceNonObject sec) ?_ "id"
  apply truthy_str_of_length
  rw [String.length_append]
  intro hlen
  have h4 : String.length "sec_" = 0 := by omega
  exact absurd h4 (by decide)

theorem truthy_type_sanitizeSection (i : Nat) (sec : JsVal) :
    truthy (getField (sanitizeSection i sec) "type") = true := by
  rw [sanitizeSection_unfold, getField_setField_ne _ (by decide)]
  unfold sanitizeSectionSteps
  rw [getField_ensureArrayField_ne (by decide), getField_coerceStringField_ne (by decide)]
  refine truthy_getField_ensureField ?_ (by decide) "type"
  rw [isObjVal_ensureField]
  exact isObjVal_coerceNonObject sec

theorem isStr_sectionIntent_sanitizeSection (i : Nat) (sec : JsVal) :
    isStr (getField (sanitizeSection i sec) "section_intent") = true := by
  rw [sanitizeSection_unfold, getField_setField_ne _ (by decide)]
  unfold sanitizeSectionSteps
  rw [getField_ensureArrayField_ne (by decide)]
  refine isStr_getField_coerceStringField ?_ "section_intent"
  rw [isObjVal_ensureField, isObjVal_ensureField]
  exact isObjVal_coerceNonObject sec

theorem elements_sanitizeSection (i : Nat) (sec : JsVal) :
    getField (sanitizeSection i sec) "elements" =
      .arr ((arrElems (getField (sanitizeSectionSteps i sec) "elements")).map sanitizeElement) [] := by
  rw [sanitizeSection_unfold]
  exact getField_setField_self (isObjVal_sanitizeSectionSteps i sec) "elements" _

theorem sanitizeSection_fixes (i : Nat) (sec : JsVal) :
    sanitizeSection i (sanitizeSection i sec) = sanitizeSection i sec := by
  have hr := isObjVal_sanitizeSection i sec
  have hid := truthy_id_sanitizeSection i sec
  have htype := truthy_type_sanitizeSection i sec
  have hsi := isStr_sectionIntent_sanitizeSection i sec
  have helems := elements_sanitizeSection i sec
  have hsteps : sanitizeSectionSteps i (sanitizeSection i sec) = sanitizeSection i sec := by
    unfold sanitizeSectionSteps
    rw [coerceNonObject_of_isObjVal hr, ensureField_of_truthy hid,
      ensureField_of_truthy htype, coerceStringField_of_isStr hsi,
      ensureArrayField_of_isArray (by rw [helems]; rfl)]
  rw [sanitizeSection_unfold i (sanitizeSection i sec), hsteps, helems]
  show setField (sanitizeSection i sec) "elements"
    (.arr (((arrElems (getField (sanitizeSectionSteps i sec) "elements")).map
      sanitizeElement).map sanitizeElement) []) = sanitizeSection i sec
  rw [List.map_map]
  have hmap :
      (arrElems (getField (sanitizeSectionSteps i sec) "elements")).map
          (sanitizeElement ∘ sanitizeElement) =
        (arrElems (getField (sanitizeSectionSteps i sec) "elements")).map sanitizeElement :=
    List.map_congr_left fun a _ => sanitizeElement_fixes a
  rw [hmap]
  exact setField_of_getField_eq (fun h => JsVal.noConfusion h) helems

theorem mapWithIndex_fixes {α : Type} (f : Nat → α → α)
    (hf : ∀ i a, f i (f i a) = f i a) :
    ∀ (n : Nat) (l : List α), mapWithIndex f n (mapWithIndex f n l) = mapWithIndex f n l := by
  intro n l
  induction l generalizing n with
  | nil => rfl
  | cons a rest ih => simp [mapWithIndex, hf, ih]

theorem sanitizeSchema_unfold {o : JsVal} (h : isObjVal o = true) :
    sanitizeSchema o =
      setField (sanitizeTopSteps o) "sections"
        (.arr (mapWithIndex sanitizeSection 0 (arrElems (getField (sanitizeTopSteps o) "sections"))) []) := by
  unfold sanitizeSchema
  rw [truthy_and_typeofObject, h]
  rfl

theorem sanitizeSchema_of_not_isObjVal {o : JsVal} (h : isObjVal o = false) :
    sanitizeSchema o = o := by
  unfold sanitizeSchema
  rw [truthy_and_typeofObject, h]
  rfl

theorem isObjVal_sanitizeTopSteps (o : JsVal) :
    isObjVal (sanitizeTopSteps o) = isObjVal o := by
  unfold sanitizeTopSteps
  rw [isObjVal_coerceStringField, isObjVal_ensureArrayField]

theorem isObjVal_sanitizeSchema {o : JsVal} (h : isObjVal o = true) :
    isObjVal (sanitizeSchema o) = true := by
  rw [sanitizeSchema_unfold h, isObjVal_setField, isObjVal_sanitizeTopSteps]
  exact h

theorem sections_sanitizeSchema {o : JsVal} (h : isObjVal o = true) :
    getField (sanitizeSchema o) "sections" =
      .arr (mapWithIndex sanitizeSection 0 (arrElems (getField (sanitizeTopSteps o) "sections"))) [] := by
  rw [sanitizeSchema_unfold h]
  refine getField_setField_self ?_ "sections" _
  rw [isObjVal_sanitizeTopSteps]
  exact h

theorem isStr_pageIntent_sanitizeSchema {o : JsVal} (h : isObjVal o = true) :
    isStr (getField (sanitizeSchema o) "page_intent") = true := by
  rw [sanitizeSchema_unfold h, getField_setField_ne _ (by decide)]
  unfold sanitizeTopSteps
  refine isStr_getField_coerceStringField ?_ "page_intent"
  rw [isObjVal_ensureArrayField]
  exact h

theorem sanitizeSchema_fixes (x : JsVal) :
    sanitizeSchema (sanitizeSchema x) = sanitizeSchema x := by
  cases hx : isObjVal x with
  | false => rw [sanitizeSchema_of_not_isObjVal hx, sanitizeSchema_of_not_isObjVal hx]
  | true =>
    have hr := isObjVal_sanitizeSchema hx
    have hsec := sections_sanitizeSchema hx
    have hpi := isStr_pageIntent_sanitizeSchema hx
    have hsteps : sanitizeTopSteps (sanitizeSchema x) = sanitizeSchema x := by
      unfold sanitizeTopSteps
      rw [ensureArrayField_of_isArray (by rw [hsec]; rfl), coerceStringField_of_isStr hpi]
    rw [sanitizeSchema_unfold hr, hsteps, hsec]
    show setField (sanitizeSchema x) "sections"
      (.arr (mapWithIndex sanitizeSection 0
        (mapWithIndex sanitizeSection 0 (arrElems (getField (sanitizeTopSteps x) "sections")))) []) =
      sanitizeSchema x
    rw [mapWithIndex_fixes sanitizeSection sanitizeSection_fixes 0]
    exact setField_of_getField_eq (fun h => JsVal.noConfusion h) hsec

/-! ### The AnalyzedPage shape (spec section 3) and sanitizer identity on it -/

/-- The six allowed section types of the AnalyzedPage schema. -/
def sectionTypeEnum : List String :=
  ["header", "hero", "content", "sidebar", "footer", "other"]

/-- The eleven allowed element types of the AnalyzedPage schema. -/
def elementTypeEnum : List String :=
  ["LOGO", "HEADING", "TEXT", "IMAGE", "BUTTON", "LINK", "VIDEO", "FORM", "INPUT",
   "LIST", "LIST_ITEM"]

/-- Conformance of an element to the AnalyzedPage schema (spec section 3):
an object with no keys beyond `type`/`text`/`alt`/`intent`, `type` drawn
from the element enum, `text` and `alt` strings, and `intent` a string of
length at least 3. -/
def elementConforms (e : JsVal) : Bool :=
  match e with
  | .obj props =>
      props.all (fun p => decide (p.1 = "type" ∨ p.1 = "text" ∨ p.1 = "alt" ∨ p.1 = "intent")) &&
      (match getField (.obj props) "type" with
       | .str t => decide (t ∈ elementTypeEnum)
       | _ => false) &&
      isStr (getField (.obj props) "text") &&
      isStr (getField (.obj props) "alt") &&
      (match getField (.obj props) "intent" with
       | .str s => decide (3 ≤ s.length)
       | _ => false)
  | _ => false

/-- Conformance of a section to the AnalyzedPage schema (spec section 3). -/
def sectionConforms (s : JsVal) : Bool :=
  match s with
  | .obj props =>
      props.all (fun p =>
        decide (p.1 = "id" ∨ p.1 = "type" ∨ p.1 = "section_intent" ∨ p.1 = "elements")) &&
      (match getField (.obj props) "id" with
       | .str t => decide (1 ≤ t.length)
       | _ => false) &&
      (match getField (.obj props) "type" with
       | .str t => decide (t ∈ sectionTypeEnum)
       | _ => false) &&
      (match getField (.obj props) "section_intent" with
       | .str t => decide (3 ≤ t.length)
       | _ => false) &&
      (match getField (.obj props) "elements" with
       | .arr elems [] => !elems.isEmpty && elems.all elementConforms
       | _ => false)
  | _ => false

/-- Conformance of a whole value to the AnalyzedPage schema (spec
section 3): `page_intent` a string of length at least 5 and `sections` a
non-empty array of conforming sections, with no extra keys. -/
def conformsAnalyzedPage (v : JsVal) : Bool :=
  match v with
  | .obj props =>
      props.all (fun p => decide (p.1 = "page_intent" ∨ p.1 = "sections")) &&
      (match getField (.obj props) "page_intent" with
       | .str t => decide (5 ≤ t.length)
       | _ => false) &&
      (match getField (.obj props) "sections" with
       | .arr secs [] => !secs.isEmpty && secs.all sectionConforms
       | _ => false)
  | _ => false

theorem sanitizeElement_id_of_conforms {e : JsVal} (h : elementConforms e = true) :
    sanitizeElement e = e := by
  match e with
  | .obj props =>
    simp only [elementConforms, Bool.and_eq_true] at h
    obtain ⟨⟨⟨⟨-, htype⟩, htext⟩, halt⟩, hintent⟩ := h
    have htruthy : truthy (getField (.obj props) "type") = true := by
      cases hgt : getField (.obj props) "type" <;> rw [hgt] at htype
      case str t =>
        have hne : ∀ t2 ∈ elementTypeEnum, t2.length ≠ 0 := by decide
        simp only [decide_eq_true_eq] at htype
        exact truthy_str_of_length (hne t htype)
      all_goals simp at htype
    have hintent2 : isStr (getField (.obj props) "intent") = true := by
      cases hgt : getField (.obj props) "intent" <;> rw [hgt] at hintent
      case str t => rfl
      all_goals simp at hintent
    unfold sanitizeElement
    rw [coerceNonObject_of_isObjVal (by rfl), ensureField_of_truthy htruthy,
      coerceTextField_of_isStr htext, coerceTextField_of_isStr halt,
      coerceStringField_of_isStr hintent2]

theorem sanitizeSection_id_of_conforms {s : JsVal} (i : Nat) (h : sectionConforms s = true) :
    sanitizeSection i s = s := by
  match s with
  | .obj props =>
    simp only [sectionConforms, Bool.and_eq_true] at h
    obtain ⟨⟨⟨⟨-, hid⟩, htype⟩, hsi⟩, helems⟩ := h
    have hidt : truthy (getField (.obj props) "id") = true := by
      cases hgt : getField (.obj props) "id" <;> rw [hgt] at hid
      case str t =>
        simp only [decide_eq_true_eq] at hid
        exact truthy_str_of_length (by omega)
      all_goals simp at hid
    have htypet : truthy (getField (.obj props) "type") = true := by
      cases hgt : getField (.obj props) "type" <;> rw [hgt] at htype
      case str t =>
        have hne : ∀ t2 ∈ sectionTypeEnum, t2.length ≠ 0 := by decide
        simp only [decide_eq_true_eq] at htype
        exact truthy_str_of_length (hne t htype)
      all_goals simp at htype
    have hsit : isStr (getField (.obj props) "section_intent") = true := by
      cases hgt : getField (.obj props) "section_intent" <;> rw [hgt] at hsi
      case str t => rfl
      all_goals simp at hsi
    obtain ⟨elems, hgelems, hall⟩ :
        ∃ elems, getField (.obj props) "elements" = .arr elems [] ∧
          elems.all elementConforms = true := by
      cases hgt : getField (.obj props) "elements" <;> rw [hgt] at helems
      case arr elems props2 =>
        cases props2 with
        | nil => exact ⟨elems, rfl, (Bool.and_eq_true _ _ |>.mp helems).2⟩
        | cons p rest => simp at helems
      all_goals simp at helems
    have hsteps : sanitizeSectionSteps i (.obj props) = .obj props := by
      unfold sanitizeSectionSteps
      rw [coerceNonObject_of_isObjVal (by rfl), ensureField_of_truthy hidt,
        ensureField_of_truthy htypet, coerceStringField_of_isStr hsit,
        ensureArrayField_of_isArray (by rw [hgelems]; rfl)]
    rw [sanitizeSection_unfold, hsteps, hgelems]
    show setField (.obj props) "elements" (.arr (elems.map sanitizeElement) []) = .obj props
    have hmap : elems.map sanitizeElement = elems := by
      have : ∀ a ∈ elems, sanitizeElement a = a := fun a ha =>
        sanitizeElement_id_of_conforms (List.all_eq_true.mp hall a ha)
      calc elems.map sanitizeElement = elems.map id := List.map_congr_left this
        _ = elems := List.map_id elems
    rw [hmap]
    exact setField_of_getField_eq (fun hc => JsVal.noConfusion hc) hgelems

theorem mapWithIndex_id_of {α : Type} (f : Nat → α → α) (l : List α)
    (h : ∀ a ∈ l, ∀ i, f i a = a) : ∀ n, mapWithIndex f n l = l := by
  induction l with
  | nil => intro n; rfl
  | cons a rest ih =>
    intro n
    rw [mapWithIndex, h a (by simp) n, ih (fun b hb i => h b (by simp [hb]) i) (n + 1)]

theorem sanitizeSchema_id_of_conforms {v : JsVal} (h : conformsAnalyzedPage v = true) :
    sanitizeSchema v = v := by
  match v with
  | .obj props =>
    simp only [conformsAnalyzedPage, Bool.and_eq_true] at h
    obtain ⟨⟨-, hpi⟩, hsecs⟩ := h
    have hpit : isStr (getField (.obj props) "page_intent") = true := by
      cases hgt : getField (.obj props) "page_intent" <;> rw [hgt] at hpi
      case str t => rfl
      all_goals simp at hpi
    obtain ⟨secs, hgsecs, hall⟩ :
        ∃ secs, getField (.obj props) "sections" = .arr secs [] ∧
          secs.all sectionConforms = true := by
      cases hgt : getField (.obj props) "sections" <;> rw [hgt] at hsecs
      case arr secs props2 =>
        cases props2 with
        | nil => exact ⟨secs, rfl, (Bool.and_eq_true _ _ |>.mp hsecs).2⟩
        | cons p rest => simp at hsecs
      all_goals simp at hsecs
    have hsteps : sanitizeTopSteps (.obj props) = .obj props := by
      unfold sanitizeTopSteps
      rw [ensureArrayField_of_isArray (by rw [hgsecs]; rfl), coerceStringField_of_isStr hpit]
    rw [sanitizeSchema_unfold (by rfl), hsteps, hgsecs]
    show setField (.obj props) "sections" (.arr (mapWithIndex sanitizeSection 0 secs) []) =
      .obj props
    rw [mapWithIndex_id_of sanitizeSection secs
      (fun a ha i => sanitizeSection_id_of_conforms i (List.all_eq_true.mp hall a ha)) 0]
    exact setField_of_getField_eq (fun hc => JsVal.noConfusion hc) hgsecs

/-! ### Claim C1 -/

/-- C1: the schema sanitizer is idempotent — for every input value `x`,
`sanitizeSchema (sanitizeSchema x)` is structurally equal to
`sanitizeSchema x`; in particular, applying it to data already satisfying
the AnalyzedPage shape changes nothing. -/
theorem claim1_sanitize_idempotent (x : JsVal) :
    sanitizeSchema (sanitizeSchema x) = sanitizeSchema x ∧
    (conformsAnalyzedPage x = true → sanitizeSchema x = x) :=
  ⟨sanitizeSchema_fixes x, fun h => sanitizeSchema_id_of_conforms h⟩

/-- A concrete value already satisfying the AnalyzedPage shape. -/
def conformantPage : JsVal :=
  .obj [("page_intent", .str "Sell things online"),
        ("sections", .arr
          [.obj [("id", .str "sec_hero"), ("type", .str "hero"),
                 ("section_intent", .str "Welcome visitors"),
                 ("elements", .arr
                   [.obj [("type", .str "HEADING"), ("text", .str "Hi"),
                          ("alt", .str ""), ("intent", .str "Greet users")]] [])]] [])]

/-- Witness for C1 at a concrete conformant page. -/
theorem claim1_sanitize_idempotent_witness :
    conformsAnalyzedPage conformantPage = true ∧ sanitizeSchema conformantPage = conformantPage :=
  ⟨rfl, (claim1_sanitize_idempotent conformantPage).2 rfl⟩

/-! ### Post-sanitization facts about single elements -/

theorem isObjVal_sanitizeElement (el : JsVal) : isObjVal (sanitizeElement el) = true := by
  unfold sanitizeElement
  rw [isObjVal_coerceStringField, isObjVal_coerceTextField, isObjVal_coerceTextField,
    isObjVal_ensureField]
  exact isObjVal_coerceNonObject el

theorem truthy_type_sanitizeElement (el : JsVal) :
    truthy (getField (sanitizeElement el) "type") = true := by
  unfold sanitizeElement
  rw [getField_coerceStringField_ne (by decide), getField_coerceTextField_ne (by decide),
    getField_coerceTextField_ne (by decide)]
  exact truthy_getField_ensureField (isObjVal_coerceNonObject el) (by decide) "type"

theorem isStr_text_sanitizeElement (el : JsVal) :
    isStr (getField (sanitizeElement el) "text") = true := by
  unfold sanitizeElement
  rw [getField_coerceStringField_ne (by decide), getField_coerceTextField_ne (by decide)]
  refine isStr_getField_coerceTextField ?_ "text"
  rw [isObjVal_ensureField]
  exact isObjVal_coerceNonObject el

theorem isStr_alt_sanitizeElement (el : JsVal) :
    isStr (getField (sanitizeElement el) "alt") = true := by
  unfold sanitizeElement
  rw [getField_coerceStringField_ne (by decide)]
  refine isStr_getField_coerceTextField ?_ "alt"
  rw [isObjVal_coerceTextField, isObjVal_ensureField]
  exact isObjVal_coerceNonObject el

theorem isStr_intent_sanitizeElement (el : JsVal) :
    isStr (getField (sanitizeElement el) "intent") = true := by
  unfold sanitizeElement
  refine isStr_getField_coerceStringField ?_ "intent"
  rw [isObjVal_coerceTextField, isObjVal_coerceTextField, isObjVal_ensureField]
  exact isObjVal_coerceNonObject el

theorem isArray_elements_sanitizeSection (i : Nat) (sec : JsVal) :
    isArray (getField (sanitizeSection i sec) "elements") = true := by
  rw [elements_sanitizeSection]
  rfl

theorem id_synthesized_sanitizeSection (i : Nat) {sec : JsVal}
    (h : truthy (getField (coerceNonObject sec) "id") = false) :
    getField (sanitizeSection i sec) "id" = .str ("sec_" ++ padStart3 (Nat.repr i)) := by
  rw [sanitizeSection_unfold, getField_setField_ne _ (by decide)]
  unfold sanitizeSectionSteps
  rw [getField_ensureArrayField_ne (by decide), getField_coerceStringField_ne (by decide),
    getField_ensureField_ne (by decide)]
  unfold ensureField
  rw [h]
  show getField (setField (coerceNonObject sec) "id" _) "id" = _
  rw [getField_setField_self (isObjVal_coerceNonObject sec)]

theorem mem_mapWithIndex {α β : Type} {f : Nat → α → β} {b : β} :
    ∀ {n : Nat} {l : List α}, b ∈ mapWithIndex f n l → ∃ i a, a ∈ l ∧ b = f i a := by
  intro n l
  induction l generalizing n with
  | nil => intro h; exact absurd h (by simp [mapWithIndex])
  | cons a rest ih =>
    intro h
    rw [mapWithIndex] at h
    rcases List.mem_cons.mp h with h1 | h2
    · exact ⟨n, a, by simp, h1⟩
    · obtain ⟨i, a2, ha2, hb⟩ := ih h2
      exact ⟨i, a2, by simp [ha2], hb⟩

/-! ### Claim C2 -/

/-- A section whose `id` and element `type` are truthy non-strings and
whose `type` is a non-enumerated non-empty string. -/
def roguePage : JsVal :=
  .obj [("sections", .arr
    [.obj [("id", .num 7), ("type", .str "banana"),
           ("elements", .arr
             [.obj [("type", .num 5), ("text", .str "t"), ("alt", .str ""),
                    ("intent", .str "why")]] [])]] [])]

/-- C2 counterexample: sanitization keeps the non-enumerated section type
`"banana"` (no enum validation), keeps the numeric section `id` `7`
(not a string), and keeps the numeric element `type` `5` (not a string),
refuting the claim as stated. -/
theorem claim2_counterexample :
    ((arrElems (getField (sanitizeSchema roguePage) "sections")).map
        (fun s => (getField s "type", isStr (getField s "id"),
          (arrElems (getField s "elements")).map (fun e => isStr (getField e "type"))))
      = [(.str "banana", false, [false])]) ∧
    decide ("banana" ∈ sectionTypeEnum) = false :=
  ⟨rfl, rfl⟩

/-- C2 (amended): for every object input, after sanitization `sections`
is an array; every section has a truthy `id` (synthesized as `sec_NNN`,
zero-padded to 3 digits from the array index, when falsy), a truthy
`type` (with `"other"` substituted only for falsy values — unrecognized
truthy values pass through unvalidated), a string `section_intent`, and
an array `elements`; and every element has a truthy `type` and string
`text`, `alt` and `intent`. -/
theorem claim2_sanitize_invariants (x : JsVal) (hx : isObjVal x = true) :
    isArray (getField (sanitizeSchema x) "sections") = true ∧
    (∀ s ∈ arrElems (getField (sanitizeSchema x) "sections"),
      truthy (getField s "id") = true ∧
      truthy (getField s "type") = true ∧
      isStr (getField s "section_intent") = true ∧
      isArray (getField s "elements") = true ∧
      ∀ e ∈ arrElems (getField s "elements"),
        truthy (getField e "type") = true ∧
        isStr (getField e "text") = true ∧
        isStr (getField e "alt") = true ∧
        isStr (getField e "intent") = true) ∧
    (∀ (i : Nat) (sec : JsVal), truthy (getField (coerceNonObject sec) "id") = false →
      getField (sanitizeSection i sec) "id" = .str ("sec_" ++ padStart3 (Nat.repr i))) := by
  refine ⟨by rw [sections_sanitizeSchema hx]; rfl, ?_, fun i sec h => id_synthesized_sanitizeSection i h⟩
  intro s hs
  rw [sections_sanitizeSchema hx] at hs
  obtain ⟨i, a, -, rfl⟩ := mem_mapWithIndex hs
  refine ⟨truthy_id_sanitizeSection i a, truthy_type_sanitizeSection i a,
    isStr_sectionIntent_sanitizeSection i a, isArray_elements_sanitizeSection i a, ?_⟩
  intro e he
  rw [elements_sanitizeSection] at he
  obtain ⟨el, -, rfl⟩ := List.mem_map.mp he
  exact ⟨truthy_type_sanitizeElement el, isStr_text_sanitizeElement el,
    isStr_alt_sanitizeElement el, isStr_intent_sanitizeElement el⟩

/-- Witness for the amended C2 at the concrete rogue page. -/
theorem claim2_sanitize_invariants_witness :
    isArray (getField (sanitizeSchema roguePage) "sections") = true :=
  (claim2_sanitize_invariants roguePage rfl).1

/-! ### Claim C10 -/

/-- C10: the sanitizer never removes properties — top-level keys other
than `sections`/`page_intent`, section keys other than
`id`/`type`/`section_intent`/`elements`, and element keys other than
`type`/`text`/`alt`/`intent` read unchanged after sanitization. -/
theorem claim10_sanitize_frame :
    (∀ (x : JsVal) (k : String), isObjVal x = true → k ≠ "sections" → k ≠ "page_intent" →
      getField (sanitizeSchema x) k = getField x k) ∧
    (∀ (i : Nat) (sec : JsVal) (k : String), isObjVal sec = true →
      k ≠ "id" → k ≠ "type" → k ≠ "section_intent" → k ≠ "elements" →
      getField (sanitizeSection i sec) k = getField sec k) ∧
    (∀ (el : JsVal) (k : String), isObjVal el = true →
      k ≠ "type" → k ≠ "text" → k ≠ "alt" → k ≠ "intent" →
      getField (sanitizeElement el) k = getField el k) := by
  refine ⟨fun x k hx h1 h2 => ?_, fun i sec k hsec h1 h2 h3 h4 => ?_, fun el k hel h1 h2 h3 h4 => ?_⟩
  · rw [sanitizeSchema_unfold hx, getField_setField_ne _ h1]
    unfold sanitizeTopSteps
    rw [getField_coerceStringField_ne h2, getField_ensureArrayField_ne h1]
  · rw [sanitizeSection_unfold, getField_setField_ne _ h4]
    unfold sanitizeSectionSteps
    rw [getField_ensureArrayField_ne h4, getField_coerceStringField_ne h3,
      getField_ensureField_ne h2, getField_ensureField_ne h1, coerceNonObject_of_isObjVal hsec]
  · unfold sanitizeElement
    rw [getField_coerceStringField_ne h4, getField_coerceTextField_ne h3,
      getField_coerceTextField_ne h2, getField_ensureField_ne h1, coerceNonObject_of_isObjVal hel]

/-- Witness for C10: an unknown top-level key survives sanitization with
its value unchanged. -/
theorem claim10_sanitize_frame_witness :
    getField (sanitizeSchema (.obj [("extra", .str "keepme")])) "extra" = .str "keepme" := by
  rw [claim10_sanitize_frame.1 (.obj [("extra", .str "keepme")]) "extra" rfl (by decide) (by decide)]
  rfl

/-! ### A model of strict JSON parsing (JSON.parse)

Numbers are restricted to integer literals: a fractional or exponent
form makes the parse fail in this model (the pipeline under verification
never relies on fractional values). Everything else follows the JSON
grammar accepted by `JSON.parse`, including duplicate-key semantics
(later value wins, first position kept). -/

/-- The opening brace character. -/
def lbrace : Char := Char.ofNat 123

/-- The closing brace character. -/
def rbrace : Char := Char.ofNat 125

/-- JSON insignificant whitespace. -/
def isJsonWs (c : Char) : Bool :=
  c = ' ' || c = '\t' || c = '\n' || c = '\r'

/-- Drop leading JSON whitespace. -/
def skipWs : List Char → List Char
  | [] => []
  | c :: rest => if isJsonWs c then skipWs rest else c :: rest

/-- Value of a hex digit. -/
def hexDigitVal (c : Char) : Option Nat :=
  if '0' ≤ c ∧ c ≤ '9' then some (c.toNat - 48)
  else if 'a' ≤ c ∧ c ≤ 'f' then some (c.toNat - 87)
  else if 'A' ≤ c ∧ c ≤ 'F' then some (c.toNat - 55)
  else none

/-- Body of a JSON string (after the opening quote): returns the decoded
characters and the input after the closing quote. -/
def parseJStringChars : List Char → Option (List Char × List Char)
  | [] => none
  | c :: rest =>
    if c = '"' then some ([], rest)
    else if c = '\\' then
      match rest with
      | [] => none
      | e :: rest2 =>
        if e = 'u' then
          match rest2 with
          | h1 :: h2 :: h3 :: h4 :: rest3 =>
            match hexDigitVal h1, hexDigitVal h2, hexDigitVal h3, hexDigitVal h4 with
            | some a, some b, some c2, some d =>
              (parseJStringChars rest3).map
                (fun p => (Char.ofNat (a * 4096 + b * 256 + c2 * 16 + d) :: p.1, p.2))
            | _, _, _, _ => none
          | _ => none
        else
          match (if e = '"' then some '"'
                 else if e = '\\' then some '\\'
                 else if e = '/' then some '/'
                 else if e = 'b' then some (Char.ofNat 8)
                 else if e = 'f' then some (Char.ofNat 12)
                 else if e = 'n' then some '\n'
                 else if e = 'r' then some '\r'
                 else if e = 't' then some '\t'
                 else none) with
          | some d => (parseJStringChars rest2).map (fun p => (d :: p.1, p.2))
          | none => none
    else if c.toNat < 32 then none
    else (parseJStringChars rest).map (fun p => (c :: p.1, p.2))

/-- Consume a run of decimal digits, accumulating their value. -/
def digitsVal (acc : Nat) : List Char → (Nat × List Char)
  | [] => (acc, [])
  | c :: rest => if c.isDigit then digitsVal (acc * 10 + (c.toNat - 48)) rest else (acc, c :: rest)

/-- A JSON integer literal (optional minus, digits, no leading zero); a
following `.`, `e` or `E` — a fractional or exponent form — is outside
this model and makes the parse fail. -/
def parseIntLit (l : List Char) : Option (Int × List Char) :=
  let p := match l with
    | '-' :: rest => (true, rest)
    | _ => (false, l)
  match p.2 with
  | [] => none
  | c :: rest =>
    if !c.isDigit then none
    else if c = '0' && (match rest with | d :: _ => d.isDigit | [] => false) then none
    else
      let q := digitsVal 0 (c :: rest)
      match q.2 with
      | d :: _ =>
        if d = '.' || d = 'e' || d = 'E' then none
        else some ((if p.1 then -(q.1 : Int) else (q.1 : Int)), q.2)
      | [] => some ((if p.1 then -(q.1 : Int) else (q.1 : Int)), [])

/-- Match an exact character sequence. -/
def expectChars : List Char → List Char → Option (List Char)
  | [], rest => some rest
  | p :: ps, c :: rest => if c = p then expectChars ps rest else none
  | _ :: _, [] => none

mutual

/-- One JSON value (fuelled recursive descent). -/
def parseJValue : Nat → List Char → Option (JsVal × List Char)
  | 0, _ => none
  | fuel + 1, l =>
    match skipWs l with
    | [] => none
    | c :: rest =>
      if c = '"' then
        (parseJStringChars rest).map (fun p => (JsVal.str (String.mk p.1), p.2))
      else if c = lbrace then
        match skipWs rest with
        | d :: rest2 =>
          if d = rbrace then some (.obj [], rest2)
          else parseJMembers fuel [] (d :: rest2)
        | [] => none
      else if c = '[' then
        match skipWs rest with
        | d :: rest2 =>
          if d = ']' then some (.arr [] [], rest2)
          else parseJItems fuel [] (d :: rest2)
        | [] => none
      else if c = 't' then (expectChars ['r', 'u', 'e'] rest).map (fun r => (.bool true, r))
      else if c = 'f' then (expectChars ['a', 'l', 's', 'e'] rest).map (fun r => (.bool false, r))
      else if c = 'n' then (expectChars ['u', 'l', 'l'] rest).map (fun r => (.null, r))
      else (parseIntLit (c :: rest)).map (fun p => (.num p.1, p.2))

/-- Members of a JSON object (after the opening brace, non-empty case);
duplicate keys follow JS semantics via `setProps`. -/
def parseJMembers : Nat → List (String × JsVal) → List Char → Option (JsVal × List Char)
  | 0, _, _ => none
  | fuel + 1, acc, l =>
    match skipWs l with
    | q :: rest =>
      if q = '"' then
        match parseJStringChars rest with
        | none => none
        | some (cs, rest2) =>
          match skipWs rest2 with
          | colon :: rest3 =>
            if colon = ':' then
              match parseJValue fuel rest3 with
              | none => none
              | some (v, rest4) =>
                match skipWs rest4 with
                | sep :: rest5 =>
                  if sep = ',' then parseJMembers fuel (setProps (String.mk cs) v acc) rest5
                  else if sep = rbrace then some (.obj (setProps (String.mk cs) v acc), rest5)
                  else none
                | [] => none
            else none
          | [] => none
      else none
    | [] => none

/-- Items of a JSON array (after the opening bracket, non-empty case). -/
def parseJItems : Nat → List JsVal → List Char → Option (JsVal × List Char)
  | 0, _, _ => none
  | fuel + 1, acc, l =>
    match parseJValue fuel l with
    | none => none
    | some (v, rest) =>
      match skipWs rest with
      | sep :: rest2 =>
        if sep = ',' then parseJItems fuel (acc ++ [v]) rest2
        else if sep = ']' then some (.arr (acc ++ [v]) [], rest2)
        else none
      | [] => none

end

/-- `JSON.parse`: one value, then only whitespace to the end. -/
def jsonParse (s : String) : Option JsVal :=
  match parseJValue (3 * s.length + 3) s.data with
  | some (v, rest) => if (skipWs rest).isEmpty then some v else none
  | none => none

/-- `tryParseJSON` from src/utils/http.js: `JSON.parse` with the thrown
error converted to `null` (modelled as `none`). -/
def tryParseJSON (s : String) : Option JsVal := jsonParse s

/-! ### JSON.stringify and the response normalizer -/

/-- Escape one character for a JSON string literal, as
`JSON.stringify` does. -/
def jsonEscapeChar (c : Char) : String :=
  if c = '"' then "\\\""
  else if c = '\\' then "\\\\"
  else if c = Char.ofNat 8 then "\\b"
  else if c = Char.ofNat 12 then "\\f"
  else if c = '\n' then "\\n"
  else if c = '\r' then "\\r"
  else if c = '\t' then "\\t"
  else if c.toNat < 32 then
    "\\u00" ++ String.mk [(if c.toNat / 16 = 1 then '1' else '0'),
      (let d := c.toNat % 16
       if d < 10 then Char.ofNat (48 + d) else Char.ofNat (87 + d))]
  else String.mk [c]

/-- Quote a string as a JSON string literal. -/
def jsonQuote (s : String) : String :=
  "\"" ++ String.join (s.data.map jsonEscapeChar) ++ "\""

mutual

/-- `JSON.stringify` (without replacer/indent): `none` models the
`undefined` result (input `undefined`). -/
def jsonStringify : JsVal → Option String
  | .undefVal => none
  | .null => some "null"
  | .bool b => some (if b then "true" else "false")
  | .num n => some (toString n)
  | .str s => some (jsonQuote s)
  | .arr elems _ => some ("[" ++ stringifyItems elems ++ "]")
  | .obj props =>
    some (String.mk [lbrace] ++ String.intercalate "," (stringifyMembers props) ++ String.mk [rbrace])

/-- Array items, comma separated; an `undefined` item renders as `null`. -/
def stringifyItems : List JsVal → String
  | [] => ""
  | v :: rest =>
    (match jsonStringify v with
     | some s => s
     | none => "null")
    ++ (match rest with
        | [] => ""
        | _ => ",")
    ++ stringifyItems rest

/-- Object members; entries whose value stringifies to `undefined` are
dropped. -/
def stringifyMembers : List (String × JsVal) → List String
  | [] => []
  | (k, v) :: rest =>
    match jsonStringify v with
    | some sv => (jsonQuote k ++ ":" ++ sv) :: stringifyMembers rest
    | none => stringifyMembers rest

end

/-- JavaScript `s.indexOf(c)` as an option. -/
def charIdxFrom (c : Char) : List Char → Option Nat
  | [] => none
  | d :: rest => if d = c then some 0 else (charIdxFrom c rest).map (· + 1)

/-- `String.prototype.indexOf` for a single character. -/
def strIndexOf (s : String) (c : Char) : Option Nat :=
  charIdxFrom c s.data

/-- `String.prototype.lastIndexOf` for a single character. -/
def strLastIndexOf (s : String) (c : Char) : Option Nat :=
  (charIdxFrom c s.data.reverse).map (fun k => s.data.length - 1 - k)

/-- `String.prototype.slice(a, b)`. -/
def strSlice (s : String) (a b : Nat) : String :=
  String.mk ((s.data.drop a).take (b - a))

/-- JavaScript truthiness of a parse result that may be `null`
(`if (direct) ...`). -/
def jsTruthyOpt : Option JsVal → Bool
  | none => false
  | some v => truthy v

/-- The failure envelope of `normalizeToJSONObject`:
`{error: "Model did not return valid JSON", raw: <text or its
stringification>}`. -/
def normalizeEnvelope (result : JsVal) : JsVal :=
  .obj [("error", .str "Model did not return valid JSON"),
        ("raw", match result with
          | .str s => .str s
          | v => match jsonStringify v with
            | some s => .str s
            | none => .undefVal)]

/-- `normalizeToJSONObject` from src/utils/http.js: objects without the
internal `raw`/`error`/`status` markers pass through; strings get a
direct parse, then a first-brace-to-last-brace slice parse; everything
else (and every failure) yields the error envelope. The function is
total: it never throws. -/
def normalizeToJSONObject (result : JsVal) : JsVal :=
  if truthy result && typeofObject result && !(hasField result "raw") &&
      !(hasField result "error") && !(hasField result "status") then
    result
  else
    match result with
    | .str s =>
      let direct := tryParseJSON s
      if jsTruthyOpt direct then direct.getD .null
      else
        match strIndexOf s lbrace, strLastIndexOf s rbrace with
        | some start, some stop =>
          if stop > start then
            let parsed := tryParseJSON (strSlice s start (stop + 1))
            if jsTruthyOpt parsed then parsed.getD .null
            else normalizeEnvelope (.str s)
          else normalizeEnvelope (.str s)
        | _, _ => normalizeEnvelope (.str s)
    | _ => normalizeEnvelope result

theorem normalizeGuard_str (s : String) :
    (truthy (.str s) && typeofObject (.str s) && !(hasField (.str s) "raw") &&
      !(hasField (.str s) "error") && !(hasField (.str s) "status")) = false := by
  simp [typeofObject]

/-! ### Claims C3 and C4 -/

/-- C3: a string that fails the direct strict parse but holds a parseable
JSON object between its first opening brace and last closing brace
normalizes to that parsed object. -/
theorem claim3_normalizer_extracts (s : String) (props : List (String × JsVal))
    (start stop : Nat)
    (hdirect : tryParseJSON s = none)
    (hstart : strIndexOf s lbrace = some start)
    (hstop : strLastIndexOf s rbrace = some stop)
    (hspan : stop > start)
    (hparse : tryParseJSON (strSlice s start (stop + 1)) = some (.obj props)) :
    normalizeToJSONObject (.str s) = .obj props := by
  unfold normalizeToJSONObject
  rw [normalizeGuard_str]
  simp only [Bool.false_eq_true, if_false]
  simp only [hdirect, hstart, hstop, hparse, jsTruthyOpt, truthy]
  simp [hspan]

/-- C4: the normalizer is a total function (it never throws in the
model), and a string from which neither the direct parse nor the
first-brace-to-last-brace slice parse recovers a truthy JSON value
normalizes to the error envelope, whose `raw` field is the original
string. -/
theorem claim4_normalizer_envelope (s : String)
    (hdirect : jsTruthyOpt (tryParseJSON s) = false)
    (hslice : ∀ start stop, strIndexOf s lbrace = some start →
      strLastIndexOf s rbrace = some stop → stop > start →
      jsTruthyOpt (tryParseJSON (strSlice s start (stop + 1))) = false) :
    normalizeToJSONObject (.str s) =
      .obj [("error", .str "Model did not return valid JSON"), ("raw", .str s)] := by
  unfold normalizeToJSONObject
  rw [normalizeGuard_str]
  simp only [Bool.false_eq_true, if_false]
  simp only [hdirect, Bool.false_eq_true, if_false]
  cases hs1 : strIndexOf s lbrace with
  | none => simp [normalizeEnvelope]
  | some start =>
    cases hs2 : strLastIndexOf s rbrace with
    | none => simp [normalizeEnvelope]
    | some stop =>
      by_cases hgt : stop > start
      · simp only [hgt, if_true, hslice start stop hs1 hs2 hgt, Bool.false_eq_true, if_false]
        simp [normalizeEnvelope]
      · simp only [hgt, if_false]
        simp [normalizeEnvelope]

/-- The spec's concrete noisy model output for the normalizer round-trip. -/
def noisyModelOutput : String :=
  "prefix noise \x7b\"page_intent\":\"p\",\"sections\":[]\x7d trailing noise"

/-- Witness for C3: the spec's round-trip example. -/
theorem claim3_normalizer_extracts_witness :
    normalizeToJSONObject (.str noisyModelOutput) =
      .obj [("page_intent", .str "p"), ("sections", .arr [] [])] :=
  claim3_normalizer_extracts noisyModelOutput
    [("page_intent", .str "p"), ("sections", .arr [] [])] 13 45 rfl rfl rfl (by decide) rfl

/-- Witness for C4: the spec's failure-envelope example. -/
theorem claim4_normalizer_envelope_witness :
    normalizeToJSONObject (.str "not json at all") =
      .obj [("error", .str "Model did not return valid JSON"),
            ("raw", .str "not json at all")] :=
  claim4_normalizer_envelope "not json at all" rfl
    (fun start stop h1 _ _ => by
      rw [show strIndexOf "not json at all" lbrace = none from rfl] at h1
      exact Option.noConfusion h1)

/-! ### Cache fingerprint builder (src/utils/cache.js) -/

/-- JavaScript `x >>> 0`: conversion to an unsigned 32-bit integer. -/
def toUint32 (n : Int) : Nat := (n % 4294967296).toNat

/-- JavaScript `ToInt32`: reduce into `[-2^31, 2^31)`. -/
def toInt32 (n : Int) : Int :=
  if n % 4294967296 < 2147483648 then n % 4294967296 else n % 4294967296 - 4294967296

/-- JavaScript `h << 5` (a signed 32-bit shift). -/
def jsShl5 (h : Int) : Int := toInt32 (toInt32 h * 32)

/-- One character step of `hashString` (src/utils/cache.js):
`h = ((h << 5) + h) + charCode; h = h & 0xffffffff` — the bitwise and
with `0xffffffff` is a `ToInt32` conversion in JavaScript. -/
def hashStep (h : Int) (c : Nat) : Int := toInt32 (jsShl5 h + h + c)

/-- One base-36 digit (lowercase, as `Number.prototype.toString(36)`). -/
def base36Digit (d : Nat) : Char :=
  if d < 10 then Char.ofNat (48 + d) else Char.ofNat (87 + d)

/-- Fuelled digit accumulation for `natToBase36`. -/
def natToBase36Core : Nat → Nat → List Char → List Char
  | 0, _, acc => acc
  | fuel + 1, n, acc =>
    if n = 0 then acc else natToBase36Core fuel (n / 36) (base36Digit (n % 36) :: acc)

/-- `Number.prototype.toString(36)` for a natural number. -/
def natToBase36 (n : Nat) : String :=
  if n = 0 then "0" else String.mk (natToBase36Core (n + 1) n [])

/-- `hashString` from src/utils/cache.js: the djb2 rolling hash (seed
5381), rendered unsigned in base 36. -/
def hashString (s : String) : String :=
  natToBase36 (toUint32 (s.data.foldl (fun h c => hashStep h c.toNat) 5381))

/-- The parameter allow-list of `buildCacheKey` (src/utils/cache.js),
in source order. -/
def cacheAllowlist : List String :=
  ["target", "viewportWidth", "viewportHeight", "fullPage",
   "imageType", "imageQuality", "waitMs", "selectorToWaitFor",
   "model", "format", "prompt", "includeScreenshot"]

/-- The allow-listed view of one parameter: `undefined`/`null` values are
absent (`params[k] != null`), others are coerced by `String(...)`. -/
def allowedParam (params : JsVal) (k : String) : Option String :=
  if looseNull (getField params k) then none else some (jsToString (getField params k))

/-- The canonical serialization `JSON.stringify({ output, ...base })`
hashed by `buildCacheKey`. -/
def cacheKeyRaw (output : String) (params : JsVal) : String :=
  let base : List (String × JsVal) :=
    cacheAllowlist.filterMap (fun k => (allowedParam params k).map (fun sv => (k, JsVal.str sv)))
  match jsonStringify (.obj (("output", .str output) :: base)) with
  | some r => r
  | none => ""

/-- `buildCacheKey` from src/utils/cache.js. -/
def buildCacheKey (output : String) (params : JsVal) : String :=
  output ++ ":" ++ hashString (cacheKeyRaw output params)

theorem toInt32_emod (x : Int) : toInt32 x % 4294967296 = x % 4294967296 := by
  unfold toInt32
  split <;> omega

theorem toInt32_congr {x y : Int} (h : x % 4294967296 = y % 4294967296) :
    toInt32 x = toInt32 y := by
  unfold toInt32
  rw [h]

theorem hashStep_eq_mul33 (h : Int) (c : Nat) : hashStep h c = toInt32 (h * 33 + c) := by
  unfold hashStep
  apply toInt32_congr
  have h1 : toInt32 h % 4294967296 = h % 4294967296 := toInt32_emod h
  have h2 : jsShl5 h % 4294967296 = (h * 32) % 4294967296 := by
    unfold jsShl5
    rw [toInt32_emod, Int.mul_emod, h1, ← Int.mul_emod]
  calc (jsShl5 h + h + (c : Int)) % 4294967296
      = (jsShl5 h % 4294967296 + (h + (c : Int)) % 4294967296) % 4294967296 := by
        rw [Int.add_assoc, Int.add_emod]
    _ = ((h * 32) % 4294967296 + (h + (c : Int)) % 4294967296) % 4294967296 := by rw [h2]
    _ = (h * 32 + (h + (c : Int))) % 4294967296 := by rw [← Int.add_emod]
    _ = (h * 33 + (c : Int)) % 4294967296 := by ring_nf

theorem toUint32_lt (x : Int) : toUint32 x < 4294967296 := by
  unfold toUint32
  have h0 : 0 ≤ x % 4294967296 := Int.emod_nonneg x (by norm_num)
  have h1 : x % 4294967296 < 4294967296 := Int.emod_lt_of_pos x (by norm_num)
  omega

theorem filterMapCongr {α β : Type} {f g : α → Option β} :
    ∀ {l : List α}, (∀ a ∈ l, f a = g a) → l.filterMap f = l.filterMap g := by
  intro l
  induction l with
  | nil => intro _; rfl
  | cons a rest ih =>
    intro h
    rw [List.filterMap_cons, List.filterMap_cons, h a (by simp),
      ih fun b hb => h b (by simp [hb])]

/-! ### Claim C5 -/

/-- C5: the cache fingerprint is deterministic in the operation plus the
allow-listed parameters (parameters outside the allow-list never affect
the key); the key has the form `<operation>:<hash>` where the hash is the
base-36 rendering of an unsigned 32-bit value computed by the djb2 fold
(seed 5381, per character `hash = hash * 33 + charCode` masked to 32
bits) over the canonical serialization. -/
theorem claim5_cache_fingerprint (o : String) (p q : JsVal)
    (hagree : ∀ k ∈ cacheAllowlist, allowedParam p k = allowedParam q k) :
    buildCacheKey o p = buildCacheKey o q ∧
    buildCacheKey o p =
      o ++ ":" ++ natToBase36 (toUint32
        ((cacheKeyRaw o p).data.foldl (fun h c => hashStep h c.toNat) 5381)) ∧
    (∀ (h : Int) (c : Nat), hashStep h c = toInt32 (h * 33 + c)) ∧
    toUint32 ((cacheKeyRaw o p).data.foldl (fun h c => hashStep h c.toNat) 5381) < 4294967296 := by
  refine ⟨?_, rfl, hashStep_eq_mul33, toUint32_lt _⟩
  have hbase : cacheKeyRaw o p = cacheKeyRaw o q := by
    unfold cacheKeyRaw
    rw [filterMapCongr fun k hk => by rw [hagree k hk]]
  unfold buildCacheKey
  rw [hbase]

/-- Witness for C5: a parameter outside the allow-list does not change
the fingerprint of `("html", {target:"https://a"})`. -/
theorem claim5_cache_fingerprint_witness :
    buildCacheKey "html" (.obj [("target", .str "https://a")]) =
      buildCacheKey "html" (.obj [("target", .str "https://a"), ("debug", .str "zzz")]) :=
  (claim5_cache_fingerprint "html"
    (.obj [("target", .str "https://a")])
    (.obj [("target", .str "https://a"), ("debug", .str "zzz")])
    (by decide)).1

/-! ### Placeholder substitution of the reconciliation orchestrator
(src/handlers/merge.js) -/

/-- Index of the first occurrence of `pat` in a character list
(JavaScript `String.prototype.indexOf` for the string search of
`String.prototype.replace`). -/
def strFindSub (pat : List Char) : List Char → Option Nat
  | [] => if pat.isEmpty then some 0 else none
  | c :: rest =>
    if pat.isPrefixOf (c :: rest) then some 0
    else (strFindSub pat rest).map (· + 1)

/-- The `GetSubstitution` dollar escapes of `String.prototype.replace`
with a string pattern: `$$`, `$&` (the match), a dollar-backtick (the
part before) and a dollar-quote (the part after); anything else is
literal. -/
def dollarSubst (matched before after : String) : List Char → List Char
  | [] => []
  | '$' :: c :: rest =>
    if c = '$' then '$' :: dollarSubst matched before after rest
    else if c = '&' then matched.data ++ dollarSubst matched before after rest
    else if c = Char.ofNat 96 then before.data ++ dollarSubst matched before after rest
    else if c = Char.ofNat 39 then after.data ++ dollarSubst matched before after rest
    else '$' :: dollarSubst matched before after (c :: rest)
  | c :: rest => c :: dollarSubst matched before after rest

/-- JavaScript `s.replace(pat, rep)` with string arguments: only the
first occurrence of `pat` is replaced. -/
def jsReplaceFirst (s pat rep : String) : String :=
  match strFindSub pat.data s.data with
  | none => s
  | some i =>
    String.mk (s.data.take i ++
      dollarSubst pat (String.mk (s.data.take i)) (String.mk (s.data.drop (i + pat.data.length)))
        rep.data ++
      s.data.drop (i + pat.data.length))

/-- The `\x7b\x7bMODE\x7d\x7d` placeholder. -/
def modeToken : String := "\x7b\x7bMODE\x7d\x7d"

/-- The `\x7b\x7bDOM_STRUCTURE_JSON\x7d\x7d` placeholder. -/
def domToken : String := "\x7b\x7bDOM_STRUCTURE_JSON\x7d\x7d"

/-- The `\x7b\x7bVISION_STRUCTURE_JSON\x7d\x7d` placeholder. -/
def visionToken : String := "\x7b\x7bVISION_STRUCTURE_JSON\x7d\x7d"

/-- The merge-prompt construction of `handleMergedStructure`
(src/handlers/merge.js step 4): three chained `.replace` calls, mode
`"merge"`. -/
def buildMergePrompt (template domJson visionJson : String) : String :=
  jsReplaceFirst
    (jsReplaceFirst (jsReplaceFirst template modeToken "merge") domToken domJson)
    visionToken visionJson

/-- The vision-prompt construction of `handleMergedStructure`
(src/handlers/merge.js step 3): mode `"vision-only"`, DOM structure
substituted. -/
def buildVisionPrompt (template domJson : String) : String :=
  jsReplaceFirst (jsReplaceFirst template modeToken "vision-only") domToken domJson

theorem strFindSub_append_isSome (pat : List Char) :
    ∀ (l1 l2 : List Char), (strFindSub pat l2).isSome = true →
      (strFindSub pat (l1 ++ l2)).isSome = true := by
  intro l1
  induction l1 with
  | nil => intro l2 h; exact h
  | cons c rest ih =>
    intro l2 h
    show (strFindSub pat (c :: (rest ++ l2))).isSome = true
    rw [strFindSub]
    split
    · rfl
    · simpa using ih l2 h

/-! ### Claim C9 -/

/-- C9: template substitution in the reconciliation orchestrator
replaces only the first occurrence of a placeholder — when the template
decomposes as `a ++ tok ++ b` with the first occurrence of `tok` at the
end of `a`, the suffix `b` (holding every later occurrence) is preserved
verbatim, so a placeholder occurring in `b` still occurs, unfilled, in
the resulting prompt; and the merge prompt is built from exactly such
single-occurrence `.replace` calls. -/
theorem claim9_first_occurrence_only :
    (∀ (a tok b rep : String),
      strFindSub tok.data (a.data ++ tok.data ++ b.data) = some a.data.length →
      jsReplaceFirst (a ++ tok ++ b) tok rep =
        a ++ String.mk (dollarSubst tok a b rep.data) ++ b) ∧
    (∀ (tok : String) (l1 l2 : List Char),
      (strFindSub tok.data l2).isSome = true →
      (strFindSub tok.data (l1 ++ l2)).isSome = true) ∧
    (∀ template domJson visionJson : String,
      buildMergePrompt template domJson visionJson =
        jsReplaceFirst
          (jsReplaceFirst (jsReplaceFirst template modeToken "merge") domToken domJson)
          visionToken visionJson) := by
  refine ⟨?_, fun tok => strFindSub_append_isSome tok.data, fun _ _ _ => rfl⟩
  intro a tok b rep hfind
  unfold jsReplaceFirst
  have hdata : (a ++ tok ++ b).data = a.data ++ tok.data ++ b.data := by
    simp [String.data_append]
  rw [hdata, hfind]
  have htake : (a.data ++ tok.data ++ b.data).take a.data.length = a.data := by
    rw [List.append_assoc]
    exact List.take_left a.data (tok.data ++ b.data)
  have hdrop : (a.data ++ tok.data ++ b.data).drop (a.data.length + tok.data.length) = b.data := by
    rw [← List.length_append]
    exact List.drop_left (a.data ++ tok.data) b.data
  show String.mk ((a.data ++ tok.data ++ b.data).take a.data.length ++
      dollarSubst tok (String.mk ((a.data ++ tok.data ++ b.data).take a.data.length))
        (String.mk ((a.data ++ tok.data ++ b.data).drop (a.data.length + tok.data.length)))
        rep.data ++
      (a.data ++ tok.data ++ b.data).drop (a.data.length + tok.data.length)) =
    a ++ String.mk (dollarSubst tok a b rep.data) ++ b
  rw [htake, hdrop]
  rfl

/-- Witness for C9: in a template holding `modeToken` twice, substitution
fills only the first occurrence; the second survives verbatim. -/
theorem claim9_first_occurrence_only_witness :
    jsReplaceFirst ("X " ++ modeToken ++ (" Y " ++ modeToken ++ " Z")) modeToken "merge" =
      "X " ++ String.mk (dollarSubst modeToken "X " (" Y " ++ modeToken ++ " Z") "merge".data) ++
        (" Y " ++ modeToken ++ " Z") ∧
    "X " ++ String.mk (dollarSubst modeToken "X " (" Y " ++ modeToken ++ " Z") "merge".data) ++
        (" Y " ++ modeToken ++ " Z") = "X merge Y \x7b\x7bMODE\x7d\x7d Z" :=
  ⟨claim9_first_occurrence_only.1 "X " modeToken (" Y " ++ modeToken ++ " Z") "merge" rfl, rfl⟩

/-! ### A backtracking regex engine

The markup extractor (src/handlers/structure.js) scans HTML with
JavaScript regexes. They are embedded as `Re` terms and executed by a
continuation-passing backtracking matcher with ECMAScript priority:
left alternative first, greedy quantifiers prefer longer, lazy prefer
shorter, an optional group prefers matching. Literals match
case-insensitively (all the embedded regexes carry the `i` flag).
Captures record the last successful enclosing-path assignment; a group
never entered on the successful path reads as `undefined` (absent). -/

inductive Re where
  | eps
  | ch (c : Char)
  | anyCh
  | notCh (c : Char)
  | seq (a b : Re)
  | alt (a b : Re)
  | starG (a : Re)
  | starL (a : Re)
  | opt (a : Re)
  | repMax (n : Nat) (a : Re)
  | grp (i : Nat) (a : Re)

/-- Sequence a list of regexes. -/
def reSeq (l : List Re) : Re := l.foldr .seq .eps

/-- A case-insensitive literal. -/
def reLit (s : String) : Re := reSeq (s.data.map .ch)

/-- Number of nodes, used to provision matcher fuel. -/
def reSize : Re → Nat
  | .eps => 1
  | .ch _ => 1
  | .anyCh => 1
  | .notCh _ => 1
  | .seq a b => reSize a + reSize b + 1
  | .alt a b => reSize a + reSize b + 1
  | .starG a => reSize a + 1
  | .starL a => reSize a + 1
  | .opt a => reSize a + 1
  | .repMax _ a => reSize a + 1
  | .grp _ a => reSize a + 1

/-- Record a capture (last write wins on read). -/
def setCap (caps : List (Nat × String)) (i : Nat) (v : String) : List (Nat × String) :=
  (i, v) :: caps

/-- Read a capture group. -/
def capStr (caps : List (Nat × String)) (i : Nat) : Option String :=
  (caps.find? (fun p => p.1 == i)).map (fun p => p.2)

/-- `match[i] || ""`. -/
def capOr (caps : List (Nat × String)) (i : Nat) : String :=
  (capStr caps i).getD ""

/-- Truthiness of `match[i]` (absent and empty captures are falsy). -/
def capTruthy (caps : List (Nat × String)) (i : Nat) : Bool :=
  match capStr caps i with
  | some s => decide (s.length ≠ 0)
  | none => false

/-- The backtracking matcher: try `re` against the front of `s`, calling
the continuation `k` with the remaining input and captures; `none` means
every alternative failed. Fuel bounds the call depth. -/
def mrun : Nat → Re → List Char → List (Nat × String) →
    (List Char → List (Nat × String) → Option (List Char × List (Nat × String))) →
    Option (List Char × List (Nat × String))
  | 0, _, _, _, _ => none
  | fuel + 1, re, s, caps, k =>
    match re with
    | .eps => k s caps
    | .ch c =>
      match s with
      | [] => none
      | d :: rest => if d.toLower = c.toLower then k rest caps else none
    | .anyCh =>
      match s with
      | [] => none
      | _ :: rest => k rest caps
    | .notCh c =>
      match s with
      | [] => none
      | d :: rest => if d = c then none else k rest caps
    | .seq a b => mrun fuel a s caps (fun s2 c2 => mrun fuel b s2 c2 k)
    | .alt a b =>
      match mrun fuel a s caps k with
      | some r => some r
      | none => mrun fuel b s caps k
    | .opt a =>
      match mrun fuel a s caps k with
      | some r => some r
      | none => k s caps
    | .starG a =>
      match mrun fuel a s caps (fun s2 c2 =>
        if s2.length < s.length then mrun fuel (.starG a) s2 c2 k else none) with
      | some r => some r
      | none => k s caps
    | .starL a =>
      match k s caps with
      | some r => some r
      | none =>
        mrun fuel a s caps (fun s2 c2 =>
          if s2.length < s.length then mrun fuel (.starL a) s2 c2 k else none)
    | .repMax n a =>
      match n with
      | 0 => k s caps
      | n2 + 1 =>
        match mrun fuel a s caps (fun s2 c2 =>
          if s2.length < s.length then mrun fuel (.repMax n2 a) s2 c2 k else none) with
        | some r => some r
        | none => k s caps
    | .grp i a =>
      mrun fuel a s caps (fun s2 c2 =>
        k s2 (setCap c2 i (String.mk (s.take (s.length - s2.length)))))

/-- The result of a successful regex search: the matched text
(`match[0]`) and the capture groups. -/
structure MatchRes where
  matched : String
  caps : List (Nat × String)

/-- Fuel that comfortably covers the matcher call depth for the embedded
patterns. -/
def reFuel (re : Re) (len : Nat) : Nat := (reSize re + 2) * (len + 2)

/-- Search left to right for the first position where `re` matches;
returns the match, the input after it, and the captures. -/
def reFindAux (re : Re) : List Char → Option (MatchRes × List Char)
  | [] =>
    match mrun (reFuel re 0) re [] [] (fun s2 c2 => some (s2, c2)) with
    | some (rest, caps) => some (⟨"", caps⟩, rest)
    | none => none
  | c :: tail =>
    match mrun (reFuel re (c :: tail).length) re (c :: tail) [] (fun s2 c2 => some (s2, c2)) with
    | some (rest, caps) =>
      some (⟨String.mk ((c :: tail).take ((c :: tail).length - rest.length)), caps⟩, rest)
    | none => reFindAux re tail

/-- JavaScript `s.match(re)` (non-global): the first match, if any. -/
def reFind (re : Re) (s : String) : Option MatchRes :=
  (reFindAux re s.data).map (fun p => p.1)

/-- JavaScript `s.matchAll(re)` for a global regex: all matches in
order, resuming after each match (advancing one character after an
empty match). -/
def reMatchAllAux (re : Re) : Nat → List Char → List MatchRes
  | 0, _ => []
  | fuel + 1, l =>
    match reFindAux re l with
    | none => []
    | some (m, rest) =>
      if m.matched.isEmpty then
        match rest with
        | [] => [m]
        | _ :: tail => m :: reMatchAllAux re fuel tail
      else m :: reMatchAllAux re fuel rest

/-- All matches of `re` in `s`. -/
def reMatchAll (re : Re) (s : String) : List MatchRes :=
  reMatchAllAux re (s.data.length + 1) s.data

/-! ### Text cleaner (cleanText, src/handlers/structure.js) -/

/-- JavaScript `\s` for the characters the cleaner meets. -/
def isJsWs (c : Char) : Bool :=
  c = ' ' || c = '\t' || c = '\n' || c = '\r' || c = Char.ofNat 11 || c = Char.ofNat 12 ||
    c = Char.ofNat 160

/-- Drop through the first `>` (the tail of a matched `<[^>]*>`). -/
def dropThroughGt : List Char → List Char
  | [] => []
  | c :: rest => if c = '>' then rest else dropThroughGt rest

/-- Fuelled worker for `stripTagsChars`: each step consumes at least one
character. -/
def stripTagsCore : Nat → List Char → List Char
  | 0, l => l
  | fuel + 1, l =>
    match l with
    | [] => []
    | c :: rest =>
      if c = '<' then
        if rest.contains '>' then stripTagsCore fuel (dropThroughGt rest) else c :: rest
      else c :: stripTagsCore fuel rest

/-- `text.replace(/<[^>]*>/g, "")`: each maximal `<`…`>` span is removed;
a `<` with no later `>` stays (the regex needs a closing `>`). -/
def stripTagsChars (l : List Char) : List Char :=
  stripTagsCore (l.length + 1) l

/-- Fuelled replace-all for a literal pattern (JavaScript
`s.replace(/pat/g, rep)` with `pat` a fixed word). -/
def replaceAllCore : Nat → List Char → List Char → List Char → List Char
  | 0, _, _, l => l
  | fuel + 1, pat, rep, l =>
    match l with
    | [] => []
    | c :: rest =>
      if pat.isPrefixOf (c :: rest) then
        rep ++ replaceAllCore fuel pat rep ((c :: rest).drop pat.length)
      else c :: replaceAllCore fuel pat rep rest

/-- `s.replace(/pat/g, rep)` for a literal pattern. -/
def jsReplaceAll (s pat rep : String) : String :=
  String.mk (replaceAllCore (s.data.length + 1) pat.data rep.data s.data)

/-- Collapse whitespace runs to single spaces (`replace(/\s+/g, " ")`). -/
def collapseWsAux (prevWs : Bool) : List Char → List Char
  | [] => []
  | c :: rest =>
    if isJsWs c then
      if prevWs then collapseWsAux true rest else ' ' :: collapseWsAux true rest
    else c :: collapseWsAux false rest

/-- JavaScript `String.prototype.trim`. -/
def trimChars (l : List Char) : List Char :=
  ((l.dropWhile isJsWs).reverse.dropWhile isJsWs).reverse

/-- `cleanText` from src/handlers/structure.js: strip tags, decode the
fixed set of eleven entities, collapse whitespace, trim; falsy (empty)
input yields the empty string. -/
def cleanText (text : String) : String :=
  if text.isEmpty then ""
  else
    let t1 := String.mk (stripTagsChars text.data)
    let t2 := jsReplaceAll t1 "&amp;" "&"
    let t3 := jsReplaceAll t2 "&lt;" "<"
    let t4 := jsReplaceAll t3 "&gt;" ">"
    let t5 := jsReplaceAll t4 "&quot;" "\""
    let t6 := jsReplaceAll t5 "&#039;" (String.singleton (Char.ofNat 39))
    let t7 := jsReplaceAll t6 "&nbsp;" " "
    let t8 := jsReplaceAll t7 "&mdash;" "-"
    let t9 := jsReplaceAll t8 "&ndash;" "-"
    let t10 := jsReplaceAll t9 "&copy;" "©"
    let t11 := jsReplaceAll t10 "&reg;" "®"
    let t12 := jsReplaceAll t11 "&trade;" "™"
    String.mk (trimChars (collapseWsAux false t12.data))

/-- `s.split(" ").filter((c) => c)`. -/
def splitClasses (s : String) : List String :=
  (s.splitOn " ").filter (fun c => !c.isEmpty)

/-! ### The embedded regexes of src/handlers/structure.js -/

/-- An optional attribute group `(?:name="([^"]*)")?`. -/
def attrOpt (i : Nat) (name : String) : Re :=
  .opt (reSeq [reLit (name ++ "=\""), .grp i (.starG (.notCh '"')), .ch '"'])

/-- A mandatory attribute capture `name="([^"]*)"`. -/
def attrCapRe (name : String) : Re :=
  reSeq [reLit (name ++ "=\""), .grp 1 (.starG (.notCh '"')), .ch '"']

/-- The anchor regex of `extractLinks`. -/
def linkRe : Re :=
  reSeq [reLit "<a", .starG (.notCh '>'), attrOpt 1 "href", .starG (.notCh '>'),
    attrOpt 2 "target", .starG (.notCh '>'), attrOpt 3 "class", .starG (.notCh '>'),
    attrOpt 4 "aria-label", .starG (.notCh '>'), .ch '>', .grp 5 (.starL .anyCh),
    reLit "</a>"]

/-- `/<header[^>]*>([\s\S]*?)<\/header>/i`. -/
def headerRe : Re :=
  reSeq [reLit "<header", .starG (.notCh '>'), .ch '>', .grp 1 (.starL .anyCh),
    reLit "</header>"]

/-- `/<nav[^>]*>([\s\S]*?)<\/nav>/i`. -/
def navRe : Re :=
  reSeq [reLit "<nav", .starG (.notCh '>'), .ch '>', .grp 1 (.starL .anyCh), reLit "</nav>"]

/-- `/<img[^>]*>/i`. -/
def imgTagRe : Re := reSeq [reLit "<img", .starG (.notCh '>'), .ch '>']

/-- A tag with a class containing `cls`:
`/<TAG[^>]*class="[^"]*CLS[^"]*"[^>]*>/`, optionally followed by lazy
content and an `<img>` (for the anchor/div logo patterns). -/
def classTagRe (tag cls : String) : Re :=
  reSeq [reLit ("<" ++ tag), .starG (.notCh '>'), reLit "class=\"", .starG (.notCh '"'),
    reLit cls, .starG (.notCh '"'), .ch '"', .starG (.notCh '>'), .ch '>']

/-- The four logo patterns of `extractHeader`, in priority order. -/
def logoPatterns : List Re :=
  [classTagRe "img" "logo",
   .seq (classTagRe "a" "logo") (.seq (.starL .anyCh) imgTagRe),
   .seq (classTagRe "div" "logo") (.seq (.starL .anyCh) imgTagRe),
   reSeq [reLit "<img", .starG (.notCh '>'), reLit "id=\"", .starG (.notCh '"'),
     reLit "logo", .starG (.notCh '"'), .ch '"', .starG (.notCh '>'), .ch '>']]

/-- A hero container `/<TAG[^>]*class="[^"]*CLS[^"]*"[^>]*>([\s\S]*?)<\/TAG>/i`. -/
def heroClassContainerRe (tag cls : String) : Re :=
  .seq (classTagRe tag cls) (.seq (.grp 1 (.starL .anyCh)) (reLit ("</" ++ tag ++ ">")))

/-- The eight hero container patterns of `extractHero`, in order. -/
def heroPatterns : List Re :=
  [heroClassContainerRe "section" "hero",
   heroClassContainerRe "div" "hero",
   heroClassContainerRe "section" "jumbotron",
   heroClassContainerRe "div" "jumbotron",
   heroClassContainerRe "section" "banner",
   heroClassContainerRe "div" "banner",
   reSeq [reLit "<section", .starG (.notCh '>'), reLit "id=\"hero\"", .starG (.notCh '>'),
     .ch '>', .grp 1 (.starL .anyCh), reLit "</section>"],
   reSeq [reLit "<main", .starG (.notCh '>'), .ch '>', .grp 1 (.repMax 3000 .anyCh)]]

/-- The `<h1>` heading regex of `extractHero`. -/
def h1Re : Re :=
  reSeq [reLit "<h1", .starG (.notCh '>'), attrOpt 1 "id", .starG (.notCh '>'),
    attrOpt 2 "class", .starG (.notCh '>'), .ch '>', .grp 3 (.starL .anyCh), reLit "</h1>"]

/-- The `<h2>` heading regex of `extractHero`. -/
def h2Re : Re :=
  reSeq [reLit "<h2", .starG (.notCh '>'), attrOpt 1 "id", .starG (.notCh '>'),
    attrOpt 2 "class", .starG (.notCh '>'), .ch '>', .grp 3 (.starL .anyCh), reLit "</h2>"]

/-- `(?:btn|button|cta)`. -/
def ctaAlt : Re := .alt (reLit "btn") (.alt (reLit "button") (reLit "cta"))

/-- The three call-to-action patterns of `extractHero`, in order. -/
def buttonPatterns : List Re :=
  [reSeq [reLit "<a", .starG (.notCh '>'), reLit "class=\"", .starG (.notCh '"'), ctaAlt,
     .starG (.notCh '"'), .ch '"', .starG (.notCh '>'), .ch '>', .grp 1 (.starL .anyCh),
     reLit "</a>"],
   reSeq [reLit "<button", .starG (.notCh '>'), reLit "class=\"", .starG (.notCh '"'), ctaAlt,
     .starG (.notCh '"'), .ch '"', .starG (.notCh '>'), .ch '>', .grp 1 (.starL .anyCh),
     reLit "</button>"],
   reSeq [reLit "<a", .starG (.notCh '>'), reLit "class=\"", .starG (.notCh '"'),
     reLit "primary", .starG (.notCh '"'), .ch '"', .starG (.notCh '>'), .ch '>',
     .grp 1 (.starL .anyCh), reLit "</a>"]]

/-- `/>([^<]*)</i` of `extractButtonData`. -/
def btnTextRe : Re := reSeq [.ch '>', .grp 1 (.starG (.notCh '<')), .ch '<']

/-- `/<(?:span|div)[^>]*>([\s\S]*?)<\/(?:span|div)>/i` of
`extractButtonData`. -/
def nestedTextRe : Re :=
  reSeq [.ch '<', .alt (reLit "span") (reLit "div"), .starG (.notCh '>'), .ch '>',
    .grp 1 (.starL .anyCh), reLit "</", .alt (reLit "span") (reLit "div"), .ch '>']

/-! ### The markup structural extractor (src/handlers/structure.js) -/

/-- The image attributes captured by `extractImageData`. -/
structure ImageData where
  src : String
  alt : String
  width : String
  height : String
  classes : List String

/-- A link captured by `extractLinks`. -/
structure LinkData where
  text : String
  href : String
  target : String
  classes : List String
  ariaLabel : String

/-- A heading captured by `extractHero` / `extractSections`. -/
structure HeadingData where
  text : String
  htmlTag : String
  id : String
  classes : List String

/-- A call-to-action captured by `extractButtonData`. -/
structure ButtonData where
  text : String
  href : String
  type : String
  classes : List String

/-- `HERO` as built by `extractHero`. -/
structure HeroData where
  heading : Option HeadingData
  image : Option ImageData
  button : Option ButtonData

/-- `HEADER` as built by `extractHeader` (`NAVIGATION.LINKS` flattened
into `navLinks`). -/
structure HeaderData where
  logo : Option ImageData
  navLinks : List LinkData

/-- The first capture of a mandatory single-attribute regex, or `""`
when the attribute is absent (`m ? m[1] : ""`). -/
def attrCapture (name : String) (tag : String) : Option String :=
  (reFind (attrCapRe name) tag).map (fun m => capOr m.caps 1)

/-- `extractImageData` from src/handlers/structure.js. -/
def extractImageData (imgTag : String) : ImageData :=
  { src := (attrCapture "src" imgTag).getD ""
    alt := (attrCapture "alt" imgTag).getD ""
    width := (attrCapture "width" imgTag).getD ""
    height := (attrCapture "height" imgTag).getD ""
    classes := match attrCapture "class" imgTag with
      | some cls => splitClasses cls
      | none => [] }

/-- `extractButtonData` from src/handlers/structure.js. -/
def extractButtonData (buttonTag : String) : ButtonData :=
  { text := match reFind btnTextRe buttonTag with
      | some m => cleanText (capOr m.caps 1)
      | none => match reFind nestedTextRe buttonTag with
        | some m => cleanText (capOr m.caps 1)
        | none => ""
    href := (attrCapture "href" buttonTag).getD ""
    type := if (String.mk (buttonTag.data.map Char.toLower)).startsWith "<a"
      then "link" else "button"
    classes := match attrCapture "class" buttonTag with
      | some cls => splitClasses cls
      | none => [] }

/-- One pushed entry of `extractLinks`: the anchor passes only with
truthy cleaned text, truthy href, and an href not starting with `#`. -/
def linkOfMatch (m : MatchRes) : Option LinkData :=
  let text := cleanText (capOr m.caps 5)
  let href := capOr m.caps 1
  if !text.isEmpty && !href.isEmpty && !href.startsWith "#" then
    some { text := text, href := href, target := capOr m.caps 2,
           classes := if capTruthy m.caps 3 then splitClasses (capOr m.caps 3) else [],
           ariaLabel := capOr m.caps 4 }
  else none

/-- The `links` array of `extractLinks` before de-duplication. -/
def linkCandidates (content : String) : List LinkData :=
  (reMatchAll linkRe content).filterMap linkOfMatch

/-- The de-duplication loop of `extractLinks`: keep the first link per
`text|href` key. -/
def dedupLinksAux (seen : List String) : List LinkData → List LinkData
  | [] => []
  | l :: rest =>
    if (l.text ++ "|" ++ l.href) ∈ seen then dedupLinksAux seen rest
    else l :: dedupLinksAux ((l.text ++ "|" ++ l.href) :: seen) rest

/-- `extractLinks` from src/handlers/structure.js. -/
def extractLinks (content : String) : List LinkData :=
  dedupLinksAux [] (linkCandidates content)

/-- The logo loop of `extractHeader`: first pattern whose match contains
an `<img>` tag supplies the logo (a pattern match without an inner
`<img>` match does not break the loop). -/
def findLogo : List Re → String → Option ImageData
  | [], _ => none
  | p :: rest, content =>
    match reFind p content with
    | some m =>
      match reFind imgTagRe m.matched with
      | some m2 => some (extractImageData m2.matched)
      | none => findLogo rest content
    | none => findLogo rest content

/-- The filter of the no-`<nav>` branch of `extractHeader`:
`!link.href.match(/^#$|^\/$/) || link.text.length > 0`. -/
def navLinkKeep (l : LinkData) : Bool :=
  !(l.href == "#" || l.href == "/") || decide (0 < l.text.length)

/-- `extractHeader` from src/handlers/structure.js. -/
def extractHeader (html : String) : HeaderData :=
  match reFind headerRe html with
  | none => { logo := none, navLinks := [] }
  | some m =>
    let headerContent := capOr m.caps 1
    { logo := findLogo logoPatterns headerContent
      navLinks := match reFind navRe headerContent with
        | some m2 => extractLinks (capOr m2.caps 1)
        | none => ((extractLinks headerContent).filter navLinkKeep).take 10 }

/-- The hero image loop: first `<img>` whose `src` does not match
`/icon|logo|avatar/i`. -/
def srcIsIconLike (src : String) : Bool :=
  ((strFindSub "icon".data (src.data.map Char.toLower)).isSome ||
   (strFindSub "logo".data (src.data.map Char.toLower)).isSome ||
   (strFindSub "avatar".data (src.data.map Char.toLower)).isSome)

/-- First non-icon-like image among the `<img>` matches. -/
def findHeroImage : List MatchRes → Option ImageData
  | [] => none
  | m :: rest =>
    let d := extractImageData m.matched
    if srcIsIconLike d.src then findHeroImage rest else some d

/-- First call-to-action among the three button patterns. -/
def findButton : List Re → String → Option ButtonData
  | [], _ => none
  | bp :: brest, content =>
    match reFind bp content with
    | some m => some (extractButtonData m.matched)
    | none => findButton brest content

/-- The heading record built by `extractHero` from a `<h1>`/`<h2>`
match (`headingMatch[1]`/`headingMatch[2]` never capture — the greedy
`[^>]*` before each optional group consumes the attributes — so `id` is
`""` and `classes` is `[]` in practice). -/
def headingOfMatch (m : MatchRes) (tag : String) : HeadingData :=
  { text := cleanText (capOr m.caps 3)
    htmlTag := tag
    id := capOr m.caps 1
    classes := if capTruthy m.caps 2 then splitClasses (capOr m.caps 2) else [] }

/-- The body of one `extractHero` loop iteration on a matched container:
set the heading (h1 preferred over h2), the first non-icon image, and
the first call-to-action. -/
def heroStep (hero : HeroData) (content : String) : HeroData :=
  let withHeading :=
    match reFind h1Re content, reFind h2Re content with
    | some m1, _ => { hero with heading := some (headingOfMatch m1 "h1") }
    | none, some m2 => { hero with heading := some (headingOfMatch m2 "h2") }
    | none, none => hero
  let withImage :=
    match findHeroImage (reMatchAll imgTagRe content) with
    | some img => { withHeading with image := some img }
    | none => withHeading
  match findButton buttonPatterns content with
  | some b => { withImage with button := some b }
  | none => withImage

/-- The container loop of `extractHero`: scan patterns in order, process
the first match, and stop as soon as a heading or image was found. -/
def heroLoop : List Re → HeroData → String → HeroData
  | [], hero, _ => hero
  | p :: rest, hero, html =>
    match reFind p html with
    | none => heroLoop rest hero html
    | some m =>
      let hero2 := heroStep hero (capOr m.caps 1)
      if hero2.heading.isSome || hero2.image.isSome then hero2
      else heroLoop rest hero2 html

/-- `extractHero` from src/handlers/structure.js. -/
def extractHero (html : String) : HeroData :=
  heroLoop heroPatterns { heading := none, image := none, button := none } html

/-! ### Claim C6 -/

/-- C6: the claim is refuted by the code — in the anchor regex the
greedy `[^>]*` before the optional `(?:href="([^"]*)")?` group consumes
the attributes, so `match[1]` is always `undefined`, `href` is always
`""`, every anchor fails the `text && href` filter, and `extractLinks`
returns `[]`: two anchors with identical `(text, href)` yield zero
entries, not one. The second conjunct isolates the cause: the anchor
text (group 5) is captured while `href` (group 1) is not. -/
theorem claim6_link_extraction_bug :
    extractLinks "<a href=\"/a\">Home</a><a href=\"/a\">Home</a>" = [] ∧
    (reFind linkRe "<a href=\"/a\">Home</a>").map (fun m => (capOr m.caps 5, capStr m.caps 1))
      = some ("Home", none) :=
  ⟨rfl, rfl⟩

/-! ### Claim C7 -/

/-- C7: with a matched header region, a nested nav region supplies
exactly `extractLinks` of its content (uncapped); otherwise the header
links are filtered by `navLinkKeep` and capped at 10. -/
theorem claim7_header_nav_links (html : String) (m : MatchRes)
    (hm : reFind headerRe html = some m) :
    (∀ m2, reFind navRe (capOr m.caps 1) = some m2 →
      (extractHeader html).navLinks = extractLinks (capOr m2.caps 1)) ∧
    (reFind navRe (capOr m.caps 1) = none →
      (extractHeader html).navLinks =
        ((extractLinks (capOr m.caps 1)).filter navLinkKeep).take 10 ∧
      (extractHeader html).navLinks.length ≤ 10) := by
  refine ⟨fun m2 h2 => ?_, fun h2 => ⟨?_, ?_⟩⟩
  · simp [extractHeader, hm, h2]
  · simp [extractHeader, hm, h2]
  · simp only [extractHeader, hm, h2]
    rw [List.length_take]
    omega

/-- Witness for C7 at a concrete header with a nested nav region. -/
theorem claim7_header_nav_links_witness :
    (extractHeader "<header><nav><a href=\"/x\">A</a></nav></header>").navLinks =
      extractLinks "<a href=\"/x\">A</a>" :=
  (claim7_header_nav_links "<header><nav><a href=\"/x\">A</a></nav></header>"
      ⟨"<header><nav><a href=\"/x\">A</a></nav></header>",
       [(1, "<nav><a href=\"/x\">A</a></nav>")]⟩ rfl).1
    ⟨"<nav><a href=\"/x\">A</a></nav>", [(1, "<a href=\"/x\">A</a>")]⟩ rfl

/-! ### Claim C8 -/

/-- The first hero container pattern that matches, in pattern order. -/
def firstHeroMatch : List Re → String → Option MatchRes
  | [], _ => none
  | p :: rest, html =>
    match reFind p html with
    | some m => some m
    | none => firstHeroMatch rest html

theorem heroStep_heading (hero : HeroData) (c : String) :
    (heroStep hero c).heading =
      match reFind h1Re c, reFind h2Re c with
      | some m1, _ => some (headingOfMatch m1 "h1")
      | none, some m2 => some (headingOfMatch m2 "h2")
      | none, none => hero.heading := by
  unfold heroStep
  cases reFind h1Re c <;> cases reFind h2Re c <;>
    cases findHeroImage (reMatchAll imgTagRe c) <;> cases findButton buttonPatterns c <;> rfl

theorem heroLoop_first_heading (ps : List Re) :
    ∀ (hero : HeroData) (html : String) (m : MatchRes),
      firstHeroMatch ps html = some m →
      (∀ m1, reFind h1Re (capOr m.caps 1) = some m1 →
        (heroLoop ps hero html).heading = some (headingOfMatch m1 "h1")) ∧
      (reFind h1Re (capOr m.caps 1) = none →
        ∀ m2, reFind h2Re (capOr m.caps 1) = some m2 →
          (heroLoop ps hero html).heading = some (headingOfMatch m2 "h2")) := by
  induction ps with
  | nil =>
    intro hero html m hm
    exact absurd hm (by simp [firstHeroMatch])
  | cons p rest ih =>
    intro hero html m hm
    rw [firstHeroMatch] at hm
    cases hp : reFind p html with
    | none =>
      rw [hp] at hm
      have hl : heroLoop (p :: rest) hero html = heroLoop rest hero html := by
        rw [heroLoop, hp]
      rw [hl]
      exact ih hero html m hm
    | some m0 =>
      rw [hp] at hm
      simp only [] at hm
      cases hm
      constructor
      · intro m1 h1
        have hh : (heroStep hero (capOr m.caps 1)).heading = some (headingOfMatch m1 "h1") := by
          rw [heroStep_heading, h1]
        have hl : heroLoop (p :: rest) hero html = heroStep hero (capOr m.caps 1) := by
          rw [heroLoop, hp]
          simp [hh]
        rw [hl, hh]
      · intro h1 m2 h2
        have hh : (heroStep hero (capOr m.caps 1)).heading = some (headingOfMatch m2 "h2") := by
          rw [heroStep_heading, h1, h2]
        have hl : heroLoop (p :: rest) hero html = heroStep hero (capOr m.caps 1) := by
          rw [heroLoop, hp]
          simp [hh]
        rw [hl, hh]

/-- C8: when the first matching hero container holds an `<h1>`, the
extracted heading comes from the first `<h1>` and `htmlTag` is `"h1"`
(regardless of any `<h2>`); the `<h2>` supplies the heading only when no
`<h1>` matches in the container. -/
theorem claim8_hero_heading_tiebreak (html : String) (m : MatchRes)
    (hm : firstHeroMatch heroPatterns html = some m) :
    (∀ m1, reFind h1Re (capOr m.caps 1) = some m1 →
      (extractHero html).heading = some (headingOfMatch m1 "h1")) ∧
    (reFind h1Re (capOr m.caps 1) = none →
      ∀ m2, reFind h2Re (capOr m.caps 1) = some m2 →
        (extractHero html).heading = some (headingOfMatch m2 "h2")) :=
  heroLoop_first_heading heroPatterns { heading := none, image := none, button := none } html m hm

/-- Witness for C8: a hero section holding both an `<h1>` and an `<h2>`
yields the `<h1>` heading. -/
theorem claim8_hero_heading_tiebreak_witness :
    (extractHero "<section class=\"hero\"><h1>A</h1><h2>B</h2></section>").heading =
      some (headingOfMatch ⟨"<h1>A</h1>", [(3, "A")]⟩ "h1") ∧
    headingOfMatch ⟨"<h1>A</h1>", [(3, "A")]⟩ "h1" =
      { text := "A", htmlTag := "h1", id := "", classes := [] } :=
  ⟨(claim8_hero_heading_tiebreak "<section class=\"hero\"><h1>A</h1><h2>B</h2></section>"
      ⟨"<section class=\"hero\"><h1>A</h1><h2>B</h2></section>",
       [(1, "<h1>A</h1><h2>B</h2>")]⟩ rfl).1
    ⟨"<h1>A</h1>", [(3, "A")]⟩ rfl, rfl⟩
